import Mathlib

/-!
Verification of the External Registry Search and Resilient Parsing Engine
of the consultor-marcas-unificado repository.

The development shallowly embeds two Python modules:

* `analizador_viabilidad_gemini.py` — the structured-response repair
  routine `_parsear_respuesta_gemini` / `_reparar_json_incompleto` with the
  field extraction and fallback logic around it; and
* `impi_fonetico_COMPLETO.py` — the paginated query driver
  `buscar_fonetica` / `_ejecutar_busqueda_fonetica`, the AJAX envelope and
  row parsers `_parsear_resultados_fonetica`, `_parsear_fila_marca`,
  `_extraer_texto_celda` and the record validator `_validar_marca`.

Pure string manipulation is embedded directly over `List Char` (Python
strings are character sequences, so character-indexed slicing matches the
source semantics).  Network input/output is embedded as an explicit
environment (`Entorno`) supplying the outcome of each HTTP interaction, and
the driver returns, next to its result, the trace of observable events
(token fetches, sleeps, page requests).  The wall clock is passed as an
explicit parameter where the source calls `datetime.now()`; elapsed-time
bookkeeping (`tiempo_busqueda`, `fecha_busqueda`) is not modelled.
-/

/-! ## Python string primitives -/

/-- The characters stripped by Python `str.strip()`. -/
def esEspacioPy (c : Char) : Bool :=
  c = ' ' ∨ c = '\t' ∨ c = '\n' ∨ c = '\r' ∨ c = '\x0b' ∨ c = '\x0c'

/-- Python `str.strip()`: drop leading and trailing whitespace. -/
def pyStrip (s : String) : String :=
  String.mk (((s.data.dropWhile esEspacioPy).reverse.dropWhile esEspacioPy).reverse)

/-- Python `str.startswith`. -/
def empiezaCon (s pre : String) : Bool :=
  pre.data.isPrefixOf s.data

/-- Python `str.endswith`. -/
def terminaCon (s suf : String) : Bool :=
  suf.data.isSuffixOf s.data

/-- Python slicing `s[n:]` (character indexed). -/
def rebanarDesde (s : String) (n : Nat) : String :=
  String.mk (s.data.drop n)

/-- Python slicing `s[:-n]` (character indexed). -/
def rebanarHastaMenos (s : String) (n : Nat) : String :=
  String.mk (s.data.take (s.data.length - n))

/-- Python `s.count(c)` for a single-character needle. -/
def contarChar (s : String) (c : Char) : Nat :=
  s.data.count c

/-- Digit run to a natural number (assumes all characters are digits). -/
def digitosANat (ds : List Char) : Nat :=
  ds.foldl (fun acc c => acc * 10 + (c.toNat - 48)) 0

/-- Python `int(str)`: strip whitespace, optional sign, decimal digits.
Returns `none` where CPython would raise `ValueError`. -/
def pyIntDeCadena (s : String) : Option Int :=
  let t := ((s.data.dropWhile esEspacioPy).reverse.dropWhile esEspacioPy).reverse
  match t with
  | '-' :: ds => if ds ≠ [] ∧ ds.all (·.isDigit) then some (-(digitosANat ds : Int)) else none
  | '+' :: ds => if ds ≠ [] ∧ ds.all (·.isDigit) then some ((digitosANat ds : Int)) else none
  | ds => if ds ≠ [] ∧ ds.all (·.isDigit) then some ((digitosANat ds : Int)) else none

/-! ## JSON values and `json.loads`

The repair routine feeds candidate text to Python `json.loads`.  The
embedding below implements the JSON grammar fragment the analysed payloads
live in: objects, arrays, strings (with the single-character escapes),
integers, booleans and `null`.  Floating-point literals and `\u` escapes
are rejected (`none`); every theorem quantified over arbitrary input is
insensitive to where the parser fails, and the concrete scenario inputs
fall inside the implemented fragment. -/

inductive Json where
  | null : Json
  | bool (b : Bool) : Json
  | num (n : Int) : Json
  | str (s : String) : Json
  | arr (elems : List Json) : Json
  | obj (campos : List (String × Json)) : Json
deriving Repr, Inhabited

/-- JSON whitespace between tokens. -/
def saltarEspacios : List Char → List Char
  | c :: cs => if c = ' ' ∨ c = '\t' ∨ c = '\n' ∨ c = '\r' then saltarEspacios cs else c :: cs
  | [] => []

/-- Single-character string escapes of JSON. -/
def escDe (c : Char) : Option Char :=
  if c = '"' then some '"'
  else if c = '\\' then some '\\'
  else if c = '/' then some '/'
  else if c = 'n' then some '\n'
  else if c = 't' then some '\t'
  else if c = 'r' then some '\r'
  else if c = 'b' then some '\x08'
  else if c = 'f' then some '\x0c'
  else none

/-- Parse the body of a JSON string literal after the opening quote. -/
def parseCadena : List Char → Option (String × List Char)
  | [] => none
  | c :: resto =>
    if c = '"' then some ("", resto)
    else if c = '\\' then
      match resto with
      | [] => none
      | e :: resto2 =>
        match escDe e with
        | some ce =>
          match parseCadena resto2 with
          | some (s, r) => some (String.mk (ce :: s.data), r)
          | none => none
        | none => none
    else
      match parseCadena resto with
      | some (s, r) => some (String.mk (c :: s.data), r)
      | none => none

/-- Parse a JSON integer literal (floats are outside the fragment). -/
def parseNum (cs : List Char) : Option (Json × List Char) :=
  let neg := match cs with | '-' :: _ => true | _ => false
  let cs2 := match cs with | '-' :: r => r | _ => cs
  let digitos := cs2.takeWhile (·.isDigit)
  let resto := cs2.dropWhile (·.isDigit)
  if digitos = [] then none
  else if digitos.length > 1 ∧ digitos.headD '0' = '0' then none
  else
    let sigue : Bool := match resto with
      | c :: _ => c == '.' || c == 'e' || c == 'E'
      | [] => false
    if sigue then none
    else
      let n : Int := (digitosANat digitos : Int)
      some (Json.num (if neg then -n else n), resto)

/-- Parsing mode: one value, object members, or array elements (with the
members or elements accumulated so far). -/
inductive ModoParseo where
  | valor : ModoParseo
  | miembros (acc : List (String × Json)) : ModoParseo
  | elementos (acc : List Json) : ModoParseo

/-- Fuel-indexed recursive-descent JSON parsing.  The three modes mirror the
mutually recursive value / object-members / array-elements grammar. -/
def parseP : Nat → ModoParseo → List Char → Option (Json × List Char)
  | 0, _, _ => none
  | fuel + 1, .valor, cs =>
    match saltarEspacios cs with
    | [] => none
    | c :: resto =>
      if c = '\x7b' then
        match saltarEspacios resto with
        | '\x7d' :: r => some (Json.obj [], r)
        | resto2 => parseP fuel (.miembros []) resto2
      else if c = '[' then
        match saltarEspacios resto with
        | ']' :: r => some (Json.arr [], r)
        | resto2 => parseP fuel (.elementos []) resto2
      else if c = '"' then
        match parseCadena resto with
        | some (s, r) => some (Json.str s, r)
        | none => none
      else if c = 't' then
        if [ 'r', 'u', 'e'].isPrefixOf resto then some (Json.bool true, resto.drop 3) else none
      else if c = 'f' then
        if [ 'a', 'l', 's', 'e'].isPrefixOf resto then some (Json.bool false, resto.drop 4) else none
      else if c = 'n' then
        if [ 'u', 'l', 'l'].isPrefixOf resto then some (Json.null, resto.drop 3) else none
      else if c = '-' ∨ c.isDigit then parseNum (c :: resto)
      else none
  | fuel + 1, .miembros acc, cs =>
    match saltarEspacios cs with
    | '"' :: resto =>
      match parseCadena resto with
      | some (clave, resto2) =>
        match saltarEspacios resto2 with
        | ':' :: resto3 =>
          match parseP fuel .valor resto3 with
          | some (v, resto4) =>
            match saltarEspacios resto4 with
            | ',' :: resto5 => parseP fuel (.miembros (acc ++ [(clave, v)])) resto5
            | '\x7d' :: resto5 => some (Json.obj (acc ++ [(clave, v)]), resto5)
            | _ => none
          | none => none
        | _ => none
      | none => none
    | _ => none
  | fuel + 1, .elementos acc, cs =>
    match parseP fuel .valor cs with
    | some (v, resto) =>
      match saltarEspacios resto with
      | ',' :: resto2 => parseP fuel (.elementos (acc ++ [v])) resto2
      | ']' :: resto2 => some (Json.arr (acc ++ [v]), resto2)
      | _ => none
    | none => none

/-- Python `json.loads`: parse one value and require only whitespace after. -/
def json_loads (s : String) : Option Json :=
  match parseP (s.data.length + 2) .valor s.data with
  | some (v, resto) => if saltarEspacios resto = [] then some v else none
  | none => none

/-! ## Data model of `impi_fonetico_COMPLETO.py` -/

/-- `MarcaInfo`: one record of the registry result table.  The unused
optional fields (`fecha_registro`, `fecha_vencimiento`,
`similitud_fonetica`) of the source constructor are always `None` / unset
on the paths under study and are omitted. -/
structure MarcaInfo where
  denominacion : String
  expediente : String
  registro : String
  titular : String
  clase : String
  estado : String
  tipo : String
deriving Repr, DecidableEq

/-- The `MarcaInfo.__init__` normalisation: each field is stripped when
truthy and replaced by the empty string otherwise (for strings,
`x.strip() if x else ""` coincides with stripping). -/
def mkMarcaInfo (denominacion expediente registro titular clase estado tipo : String) : MarcaInfo :=
  { denominacion := pyStrip denominacion
    expediente := pyStrip expediente
    registro := pyStrip registro
    titular := pyStrip titular
    clase := pyStrip clase
    estado := pyStrip estado
    tipo := pyStrip tipo }

/-- `ResultadoBusqueda`: the aggregate result of one query.  The wall-clock
fields `fecha_busqueda` and `tiempo_busqueda` are not modelled. -/
structure ResultadoBusqueda where
  marca_consultada : String
  clase_consultada : Option Int
  marcas_encontradas : List MarcaInfo
  exito : Bool
  total_registros : Nat
  error : Option String
deriving Repr, DecidableEq

/-! ## Structured-response repair (`analizador_viabilidad_gemini.py`) -/

/-- `ConfigGemini.VIABILIDAD_MIN`. -/
def VIABILIDAD_MIN : Int := 0

/-- `ConfigGemini.VIABILIDAD_MAX`. -/
def VIABILIDAD_MAX : Int := 85

/-- `AnalisisViabilidad`: the structured analysis result.  The fields that
the source fills from the loosely typed payload keep JSON type; the clock
argument of the embedding supplies `fecha_analisis = datetime.now()`. -/
structure AnalisisViabilidad where
  marca_consultada : String
  clase_consultada : Option Int
  porcentaje_viabilidad : Int
  nivel_riesgo : Json
  marcas_conflictivas : Json
  analisis_detallado : Json
  recomendaciones : Json
  factores_riesgo : Json
  factores_favorables : Json
  fecha_analisis : Nat
deriving Repr

/-- Python `dict.get(clave, defecto)` on a parsed JSON object (later keys
shadow earlier ones, as in `json.loads`). -/
def jget (campos : List (String × Json)) (clave : String) (defecto : Json) : Json :=
  match campos.reverse.find? (fun kv => kv.1 == clave) with
  | some kv => kv.2
  | none => defecto

/-- Python `int(x)` on a JSON value; `none` models the `ValueError` /
`TypeError` that the surrounding `except Exception` turns into the
fallback analysis.  (Floats do not occur: the parser fragment has none.) -/
def python_int : Json → Option Int
  | .num n => some n
  | .bool b => some (if b then 1 else 0)
  | .str s => pyIntDeCadena s
  | _ => none

/-- The markdown-fence cleanup at the start of `_parsear_respuesta_gemini`:
strip, drop a leading ```json or ``` fence, drop a trailing ``` fence,
strip again. -/
def limpiarRespuesta (respuesta_texto : String) : String :=
  let texto := pyStrip respuesta_texto
  let texto := if empiezaCon texto "```json" then rebanarDesde texto 7 else texto
  let texto := if empiezaCon texto "```" then rebanarDesde texto 3 else texto
  let texto := if terminaCon texto "```" then rebanarHastaMenos texto 3 else texto
  pyStrip texto

/-- The string produced inside `_reparar_json_incompleto` before the second
parse attempt: append one closing quote when the quote count is odd, then
one `]` per unmatched `[`, then one closing brace per unmatched opening
brace (all counts taken on the incoming text, truncated at zero as by the
`range` loops). -/
def reparar_texto (texto : String) : String :=
  let reparado := if contarChar texto '"' % 2 ≠ 0 then texto ++ "\"" else texto
  let reparado := reparado ++ String.mk (List.replicate (contarChar texto '[' - contarChar texto ']') ']')
  reparado ++ String.mk (List.replicate (contarChar texto '\x7b' - contarChar texto '\x7d') '\x7d')

/-- The fixed default payload returned when the repaired text still fails
to parse. -/
def json_defecto : Json :=
  .obj [("porcentaje_viabilidad", .num 25),
        ("nivel_riesgo", .str "ALTO"),
        ("top_15_conflictivas", .arr []),
        ("analisis_detallado", .str "Análisis incompleto debido a respuesta malformada de Gemini"),
        ("recomendaciones", .arr [.str "Realizar análisis manual"]),
        ("factores_riesgo", .arr [.str "JSON incompleto"]),
        ("factores_favorables", .arr [])]

/-- `_reparar_json_incompleto`: re-parse the repaired text; on failure
return the fixed default payload (the bare `except` never re-raises). -/
def reparar_json_incompleto (texto : String) : Json :=
  match json_loads (reparar_texto texto) with
  | some v => v
  | none => json_defecto

/-- The field-extraction half of `_parsear_respuesta_gemini` (from
`porcentaje = int(...)` to the `AnalisisViabilidad` constructor call).
`none` models an exception escaping to the `except Exception` handler
(non-object payload, or a viability value `int()` rejects). -/
def extraer_campos (data : Json) (resultado : ResultadoBusqueda) (ahora : Nat) :
    Option AnalisisViabilidad :=
  match data with
  | .obj campos =>
    match python_int (jget campos "porcentaje_viabilidad" (.num 50)) with
    | some p =>
      let porcentaje := max VIABILIDAD_MIN (min p VIABILIDAD_MAX)
      some { marca_consultada := resultado.marca_consultada
             clase_consultada := resultado.clase_consultada
             porcentaje_viabilidad := porcentaje
             nivel_riesgo := jget campos "nivel_riesgo" (.str "MEDIO")
             marcas_conflictivas :=
               jget campos "top_15_conflictivas" (jget campos "marcas_conflictivas" (.arr []))
             analisis_detallado := jget campos "analisis_detallado" (.str "")
             recomendaciones := jget campos "recomendaciones" (.arr [])
             factores_riesgo := jget campos "factores_riesgo" (.arr [])
             factores_favorables := jget campos "factores_favorables" (.arr [])
             fecha_analisis := ahora }
    | none => none
  | _ => none

/-- `_analisis_fallback`: the size-based analysis used when field
extraction fails. -/
def analisis_fallback (resultado : ResultadoBusqueda) (respuesta_texto : String) (ahora : Nat) :
    AnalisisViabilidad :=
  let total := resultado.total_registros
  let porcentaje : Int := if total = 0 then 75 else if total ≤ 3 then 60 else if total ≤ 10 then 40 else 25
  let nivel : String := if total = 0 then "BAJO" else if total ≤ 3 then "MEDIO" else if total ≤ 10 then "ALTO" else "MUY_ALTO"
  { marca_consultada := resultado.marca_consultada
    clase_consultada := resultado.clase_consultada
    porcentaje_viabilidad := porcentaje
    nivel_riesgo := .str nivel
    marcas_conflictivas := .arr []
    analisis_detallado :=
      .str (if respuesta_texto ≠ "" then respuesta_texto
            else "Análisis automático basado en cantidad de marcas similares.")
    recomendaciones :=
      .arr [.str "Revisar manualmente las marcas similares encontradas",
            .str "Considerar modificar la denominación si hay conflictos",
            .str "Consultar con un experto en propiedad intelectual"]
    factores_riesgo := .arr [.str ("Se encontraron " ++ toString total ++ " marcas similares")]
    factores_favorables :=
      if total > 0 then .arr [] else .arr [.str "No se encontraron marcas similares"]
    fecha_analisis := ahora }

/-- `_parsear_respuesta_gemini`: clean the text, try a direct `json.loads`,
fall back to incremental repair on failure, then extract fields, with the
size-based fallback when extraction raises. -/
def parsear_respuesta_gemini (respuesta_texto : String) (resultado : ResultadoBusqueda)
    (ahora : Nat) : AnalisisViabilidad :=
  let texto := limpiarRespuesta respuesta_texto
  let data := match json_loads texto with
    | some d => d
    | none => reparar_json_incompleto texto
  match extraer_campos data resultado ahora with
  | some a => a
  | none => analisis_fallback resultado respuesta_texto ahora

/-- A concrete search-result context used by scenario instantiations. -/
def resultadoEjemplo : ResultadoBusqueda :=
  { marca_consultada := "MARCA"
    clase_consultada := none
    marcas_encontradas := []
    exito := true
    total_registros := 0
    error := none }

/-! ## Row, table and envelope parsing (`impi_fonetico_COMPLETO.py`)

BeautifulSoup navigation is embedded at the structural level it extracts:
a table cell carries the stripped text returned by `get_text(strip=True)`
and, when the cell wraps its content in an anchor, the stripped link text;
a CDATA block of the AJAX envelope carries whether the results-table
marker occurs in it, the optional `"y N marcas más"` total match, and the
rows (`tr` elements with `data-ri`) of its results tbody when one is
found. -/

structure Celda where
  texto : String
  enlace : Option String
deriving Repr, DecidableEq

/-- The cell list of one table row. -/
abbrev Fila := List Celda

/-- One CDATA block of the JSF partial-response envelope. -/
structure BloqueCData where
  contieneTabla : Bool
  totalMas : Option Nat
  tbody : Option (List Fila)
deriving Repr, DecidableEq

/-- The body handed to `_parsear_resultados_fonetica`: either a JSF AJAX
XML envelope (a list of CDATA blocks) or a plain HTML page, for which the
rows of the located results table are given (`none` when no table or tbody
is found). -/
inductive Respuesta where
  | ajaxXml (bloques : List BloqueCData) : Respuesta
  | htmlPlano (filas : Option (List Fila)) : Respuesta
deriving Repr, DecidableEq

/-- Default cell for the (unreachable) out-of-range accesses below. -/
def celdaVacia : Celda := { texto := "", enlace := none }

/-- `get_text(strip=True)` on a cell, preferring the anchor text when the
cell wraps its content in a link. -/
def textoConEnlace (c : Celda) : String :=
  match c.enlace with
  | some t => t
  | none => c.texto

/-- `_extraer_texto_celda`: text of the cell at `indice`, or the empty
string when the index is out of range. -/
def extraer_texto_celda (celdas : List Celda) (indice : Nat) : String :=
  if indice < celdas.length then (celdas.getD indice celdaVacia).texto else ""

/-- `_parsear_fila_marca`: map the fixed column layout of one row into a
`MarcaInfo`; rows with fewer than 8 cells yield `none`.  With at least 8
cells every access below is in range, so the `except` branch returning
`None` is unreachable. -/
def parsear_fila_marca (fila : Fila) : Option MarcaInfo :=
  if fila.length < 8 then none
  else
    let expediente := textoConEnlace (fila.getD 4 celdaVacia)
    let denominacion := textoConEnlace (fila.getD 6 celdaVacia)
    let registro := extraer_texto_celda fila 5
    some (mkMarcaInfo denominacion expediente registro
      (extraer_texto_celda fila 3) (extraer_texto_celda fila 7) "" (extraer_texto_celda fila 1))

/-- `_validar_marca`: non-empty name, case number and class, and a class
parsing as an integer in `[1, 45]`. -/
def validar_marca (m : MarcaInfo) : Bool :=
  if m.denominacion = "" then false
  else if m.expediente = "" then false
  else if m.clase = "" then false
  else
    match pyIntDeCadena m.clase with
    | some n => if n < 1 ∨ 45 < n then false else true
    | none => false

/-- The row loop of the AJAX branch of `_parsear_resultados_fonetica`:
`marca = _parsear_fila_marca(fila); if marca: marcas.append(marca)` —
note: no validation on this path. -/
def filasAMarcas (filas : List Fila) : List MarcaInfo :=
  filas.filterMap parsear_fila_marca

/-- The CDATA scan of the AJAX branch: blocks are visited in document
order; a block without the results-table marker is skipped; a marker block
whose results tbody cannot be located is also skipped (no `break`); the
first marker block with a tbody is parsed and the loop breaks. -/
def buscarEnBloques : List BloqueCData → List MarcaInfo × Nat
  | [] => ([], 0)
  | b :: resto =>
    if b.contieneTabla then
      match b.tbody with
      | some filas =>
        let marcas := filasAMarcas filas
        let total := match b.totalMas with
          | some n => marcas.length + n
          | none => marcas.length
        (marcas, total)
      | none => buscarEnBloques resto
    else buscarEnBloques resto

/-- `_extraer_marcas_de_tabla`: the plain-HTML branch; rows through the
mapper and then the validator (`if marca and _validar_marca(marca)`). -/
def extraer_marcas_de_tabla (filasO : Option (List Fila)) : List MarcaInfo :=
  match filasO with
  | none => []
  | some filas =>
    filas.filterMap (fun fila =>
      match parsear_fila_marca fila with
      | some m => if validar_marca m then some m else none
      | none => none)

/-- `_parsear_resultados_fonetica`: dispatch on the response shape.  The
surrounding `try/except` makes the function total; the plain-HTML branch
reports `len(marcas)` as the total. -/
def parsear_resultados_fonetica (r : Respuesta) : List MarcaInfo × Nat :=
  match r with
  | .ajaxXml bloques => buscarEnBloques bloques
  | .htmlPlano filasO =>
    let marcas := extraer_marcas_de_tabla filasO
    (marcas, marcas.length)

/-! ## The paginated query driver and its retry loop -/

/-- Outcome of one page POST (`session.post` + `raise_for_status`):
a `requests.Timeout`, another `requests.RequestException` (connection
errors and HTTP error statuses), any other exception, or a body. -/
inductive RespRed where
  | timeout : RespRed
  | errorRed (msg : String) : RespRed
  | otraExcepcion (msg : String) : RespRed
  | ok (r : Respuesta) : RespRed
deriving Repr, DecidableEq

/-- The retryable failure classes of the attempt loop. -/
inductive TipoFalla where
  | timeout : TipoFalla
  | conexion (msg : String) : TipoFalla
deriving Repr, DecidableEq

/-- Result of one attempt body: success with the page aggregate, a
retryable failure, or a fatal failure (`except Exception`). -/
inductive SalidaIntento where
  | exitoI (marcas : List MarcaInfo) (total : Nat) : SalidaIntento
  | fallaReintento (f : TipoFalla) : SalidaIntento
  | fallaFatal (msg : String) : SalidaIntento
deriving Repr, DecidableEq

/-- Observable events of one query: the 2-second retry delay, a ViewState
bootstrap fetch, and a page POST (recorded with the attempt number, the
zero-based page index and the ViewState string carried by the form, the
empty string standing for an absent token). -/
inductive Evento where
  | dormir (intento : Nat) (segundos : Nat) : Evento
  | obtenerViewState (intento : Nat) : Evento
  | peticionPagina (intento : Nat) (pagina : Nat) (viewstate : String) : Evento
deriving Repr, DecidableEq

/-- Attempt number an event belongs to. -/
def intentoDe : Evento → Nat
  | .dormir a _ => a
  | .obtenerViewState a => a
  | .peticionPagina a _ _ => a

/-- Recogniser for page-request events. -/
def esPeticionPagina : Evento → Bool
  | .peticionPagina _ _ _ => true
  | _ => false

/-- The external world: the ViewState found by the `n`-th bootstrap fetch
(`""` when the landing page has no marker or the fetch itself fails, as
`_obtener_viewstate` absorbs its own exceptions), and the outcome of the
POST for a given attempt and page. -/
structure Entorno where
  bootstrap : Nat → String
  pagina : Nat → Nat → RespRed

/-- `ConfigIMPI.MAX_REINTENTOS`. -/
def MAX_REINTENTOS : Int := 3

/-- `ConfigIMPI.DELAY_ENTRE_PETICIONES` (2.0 seconds). -/
def DELAY_ENTRE_PETICIONES : Nat := 2

/-- The page ceiling of `_ejecutar_busqueda_fonetica`. -/
def max_paginas : Nat := 20

/-- The `while pagina < max_paginas` loop of `_ejecutar_busqueda_fonetica`,
with `fuel = max_paginas - pagina` iterations left.  Each iteration posts
one page request (the form carries the term, the optional class filter and
either the search-button marker for page 0 or the pagination offset
`pagina * 15`), parses the body, and applies the termination rules in
source order. -/
def buclePaginas (env : Entorno) (intento : Nat) (vs : String)
    (pagina fuel : Nat) (acc : List MarcaInfo) (total_acc : Nat) :
    SalidaIntento × List Evento :=
  match fuel with
  | 0 => (.exitoI acc total_acc, [])
  | fuel' + 1 =>
    let ev := Evento.peticionPagina intento pagina vs
    match env.pagina intento pagina with
    | .timeout => (.fallaReintento .timeout, [ev])
    | .errorRed msg => (.fallaReintento (.conexion msg), [ev])
    | .otraExcepcion msg => (.fallaFatal msg, [ev])
    | .ok r =>
      let parseo := parsear_resultados_fonetica r
      let marcas_pagina := parseo.1
      let total := parseo.2
      if marcas_pagina.isEmpty then (.exitoI acc total_acc, [ev])
      else
        let todas := acc ++ marcas_pagina
        let total_registros := if total > 0 then total else todas.length
        if marcas_pagina.length < 15 then (.exitoI todas total_registros, [ev])
        else if total_registros > 0 ∧ todas.length ≥ total_registros then
          (.exitoI todas total_registros, [ev])
        else
          let siguiente := buclePaginas env intento vs (pagina + 1) fuel' todas total_registros
          (siguiente.1, ev :: siguiente.2)

/-- `_ejecutar_busqueda_fonetica`: run the page loop from page 0. -/
def ejecutar_busqueda_fonetica (env : Entorno) (intento : Nat) (vs : String) :
    SalidaIntento × List Evento :=
  buclePaginas env intento vs 0 max_paginas [] 0

/-- `_resultado_error`: a failed aggregate carries no records. -/
def resultado_error (marca : String) (clase : Option Int) (err : String) : ResultadoBusqueda :=
  { marca_consultada := marca
    clase_consultada := clase
    marcas_encontradas := []
    exito := false
    total_registros := 0
    error := some err }

/-- Messages of the retry-exhausting failure classes. -/
def mensajeDeFalla : TipoFalla → String
  | .timeout => "Timeout: el servidor tardó demasiado"
  | .conexion msg => "Error de conexión: " ++ msg

/-- Python truthiness of the held ViewState (`None` or `""`). -/
def vsFalsy : Option String → Bool
  | none => true
  | some s => s = ""

/-- The ViewState held after the `if not self.viewstate` check of one
attempt: a bootstrap fetch happens only when none (or an empty one) is
held; the token is never cleared, so a previously acquired one is kept. -/
def vsSiguiente (env : Entorno) (intento : Nat) (vs : Option String) : Option String :=
  if vsFalsy vs then some (env.bootstrap intento) else vs

/-- The events of one attempt before its page loop: the fixed retry delay
when the attempt is not the first, and the bootstrap fetch when no truthy
ViewState is held. -/
def eventosPrevios (intento : Nat) (vs : Option String) : List Evento :=
  (if 1 < intento then [Evento.dormir intento DELAY_ENTRE_PETICIONES] else []) ++
    (if vsFalsy vs then [Evento.obtenerViewState intento] else [])

/-- The `for intento in range(1, reintentos + 1)` loop of
`buscar_fonetica`.  Each iteration sleeps the fixed delay when it is a
retry, fetches a ViewState only when none (or an empty one) is held, and
restarts pagination from page 0.  A retryable failure on the last attempt,
and any other exception immediately, produce an error result; exhausting
the range falls through to the final error return. -/
def bucleIntentos (env : Entorno) (marca : String) (clase : Option Int)
    (reintentos : Nat) (intento : Nat) (fuel : Nat) (vs : Option String) :
    ResultadoBusqueda × List Evento :=
  match fuel with
  | 0 => (resultado_error marca clase "Máximo de reintentos alcanzado", [])
  | fuel' + 1 =>
    let vs2 := vsSiguiente env intento vs
    let cuerpo := ejecutar_busqueda_fonetica env intento (vs2.getD "")
    let evs := eventosPrevios intento vs ++ cuerpo.2
    match cuerpo.1 with
    | .exitoI marcas total =>
      ({ marca_consultada := marca
         clase_consultada := clase
         marcas_encontradas := marcas
         exito := true
         total_registros := total
         error := none }, evs)
    | .fallaFatal msg => (resultado_error marca clase ("Error inesperado: " ++ msg), evs)
    | .fallaReintento f =>
      if intento = reintentos then (resultado_error marca clase (mensajeDeFalla f), evs)
      else
        let resto := bucleIntentos env marca clase reintentos (intento + 1) fuel' vs2
        (resto.1, evs ++ resto.2)

/-- `max_reintentos if max_reintentos else self.config.MAX_REINTENTOS`
(`None` and `0` are falsy). -/
def reintentos_de : Option Int → Int
  | some k => if k = 0 then MAX_REINTENTOS else k
  | none => MAX_REINTENTOS

/-- Truthiness test of `if clase_niza and (clase_niza < 1 or clase_niza > 45)`:
`None` and `0` are falsy, so a zero class filter is never rejected. -/
def claseInvalida : Option Int → Bool
  | some c => if c = 0 then false else decide (c < 1 ∨ 45 < c)
  | none => false

/-- `buscar_fonetica`: input validation, then the retry loop.  `vs0` is the
ViewState held by the client instance on entry (`None` for a fresh one). -/
def buscar_fonetica (env : Entorno) (marca : String) (clase_niza : Option Int)
    (max_reintentos : Option Int) (vs0 : Option String) : ResultadoBusqueda × List Evento :=
  if marca = "" ∨ pyStrip marca = "" then
    (resultado_error marca clase_niza "Marca vacía", [])
  else if claseInvalida clase_niza then
    (resultado_error marca clase_niza "Clase de Niza inválida", [])
  else
    let reintentos := reintentos_de max_reintentos
    bucleIntentos env marca clase_niza reintentos.toNat 1 reintentos.toNat vs0

/-! ## Concrete fixtures for scenario instantiations -/

/-- A cell with plain text. -/
def celdaTexto (t : String) : Celda := { texto := t, enlace := none }

/-- An 8-cell row that the validator accepts (class 30). -/
def filaValida : Fila :=
  [ celdaTexto "1", celdaTexto "M", celdaTexto "", celdaTexto "TITULAR SA",
    celdaTexto "100001", celdaTexto "555", celdaTexto "BUENA", celdaTexto "30"]

/-- An 8-cell row whose class 99 the validator rejects. -/
def filaMala : Fila :=
  [ celdaTexto "1", celdaTexto "M", celdaTexto "", celdaTexto "TITULAR SA",
    celdaTexto "100002", celdaTexto "", celdaTexto "MALA", celdaTexto "99"]

/-- A 5-cell row (below the 8-cell minimum). -/
def filaCorta : Fila :=
  [ celdaTexto "1", celdaTexto "M", celdaTexto "", celdaTexto "X", celdaTexto "Y"]

/-- Environment whose only page is an AJAX envelope carrying the row with
the out-of-range class. -/
def entornoAjaxMalo : Entorno :=
  { bootstrap := fun _ => "VS1"
    pagina := fun _ p =>
      if p = 0 then
        .ok (.ajaxXml [{ contieneTabla := true, totalMas := none, tbody := some [filaMala] }])
      else .ok (.ajaxXml []) }

/-- Environment that times out on the first attempt and afterwards serves
an empty envelope. -/
def entornoReintento : Entorno :=
  { bootstrap := fun n => if n = 1 then "VS1" else "VS2"
    pagina := fun a _ => if a = 1 then .timeout else .ok (.ajaxXml []) }

/-- Environment whose pages are all plain HTML: page 0 carries one valid
and one invalid row, later pages carry none. -/
def entornoHtml : Entorno :=
  { bootstrap := fun _ => "VS1"
    pagina := fun _ p =>
      if p = 0 then .ok (.htmlPlano (some [filaValida, filaMala])) else .ok (.htmlPlano none) }

/-! ## Auxiliary definitions used by the statements below -/

/-- Number of elements when a JSON value is an array (discriminator used to
separate the default payload from an empty list). -/
def longitudJson : Json → Nat
  | .arr l => l.length
  | _ => 0

/-- Projection discarding the analysis timestamp. -/
def borraFecha (a : AnalisisViabilidad) : AnalisisViabilidad :=
  { a with fecha_analisis := 0 }

/-- A block from which the scan can actually extract rows: it holds the
results-table marker and a located tbody. -/
def contribuye (b : BloqueCData) : Bool :=
  b.contieneTabla && b.tbody.isSome

/-- A marker block without a tbody. -/
def bloqueSinTbody : BloqueCData :=
  { contieneTabla := true, totalMas := none, tbody := none }

/-- A marker block with a tbody holding one valid row. -/
def bloqueConTabla : BloqueCData :=
  { contieneTabla := true, totalMas := none, tbody := some [filaValida] }

/-- Responses that do not take the AJAX-envelope branch of
`_parsear_resultados_fonetica`. -/
def esRespuestaHtml : RespRed → Bool
  | .ok (.ajaxXml _) => false
  | _ => true

/-! ## Evaluation checks of the embedding on concrete inputs -/

example : json_loads "\x7b\"a\": 1, \"b\": \"BAJO\"\x7d" =
    some (Json.obj [("a", Json.num 1), ("b", Json.str "BAJO")]) := rfl
example : json_loads "\x7b\"a\": 1" = none := rfl
example : json_loads "" = none := rfl
example : json_loads "no es json" = none := rfl
example : json_loads " [1, -2, true, null] " =
    some (Json.arr [Json.num 1, Json.num (-2), Json.bool true, Json.null]) := rfl

example :
    (parsear_respuesta_gemini "\x7b\"porcentaje_viabilidad\": 200, \"nivel_riesgo\": \"BAJO\"\x7d"
      resultadoEjemplo 7).porcentaje_viabilidad = 85 := rfl
example :
    (parsear_respuesta_gemini "\x7b\"porcentaje_viabilidad\": 40, \"nivel_riesgo\": \"ALTO\""
      resultadoEjemplo 7).porcentaje_viabilidad = 40 := rfl
example :
    (parsear_respuesta_gemini "no es json" resultadoEjemplo 7).porcentaje_viabilidad = 25 := rfl
example :
    (parsear_respuesta_gemini "no es json" resultadoEjemplo 7).factores_riesgo =
      Json.arr [Json.str "JSON incompleto"] := rfl

example :
    (buscar_fonetica entornoAjaxMalo "MARCA" none none none).1.exito = true := by decide
example :
    (buscar_fonetica entornoAjaxMalo "MARCA" none none none).1.marcas_encontradas =
      [mkMarcaInfo "MALA" "100002" "" "TITULAR SA" "99" "" "M"] := by decide
example :
    (buscar_fonetica entornoReintento "MARCA" none none none).2 =
      [ .obtenerViewState 1, .peticionPagina 1 0 "VS1",
        .dormir 2 2, .peticionPagina 2 0 "VS1"] := by decide
example :
    (buscar_fonetica entornoHtml "MARCA" none none none).1.marcas_encontradas =
      [mkMarcaInfo "BUENA" "100001" "555" "TITULAR SA" "30" "" "M"] := by decide
example :
    (buscar_fonetica entornoAjaxMalo "MARCA" (some 0) none none).1.exito = true := by decide
example : (buscar_fonetica entornoAjaxMalo "  " none none none).1.exito = false := by decide
example :
    (buscar_fonetica entornoAjaxMalo "MARCA" (some 46) none none).1.error =
      some "Clase de Niza inválida" := by decide

/-! ## Helper lemmas -/

/-- Field extraction clamps the viability score into the configured range. -/
lemma extraer_campos_acotado (data : Json) (res : ResultadoBusqueda) (t : Nat)
    (a : AnalisisViabilidad) (h : extraer_campos data res t = some a) :
    0 ≤ a.porcentaje_viabilidad ∧ a.porcentaje_viabilidad ≤ 85 := by
  cases data <;> simp only [extraer_campos] at h <;> try exact absurd h (by simp)
  case obj campos =>
    cases hp : python_int (jget campos "porcentaje_viabilidad" (.num 50)) with
    | none => rw [hp] at h; exact absurd h (by simp)
    | some p =>
      rw [hp] at h
      simp only [Option.some.injEq] at h
      subst h
      simp only [VIABILIDAD_MIN, VIABILIDAD_MAX]
      omega

/-- The fallback analysis only produces the four fixed scores. -/
lemma analisis_fallback_acotado (res : ResultadoBusqueda) (texto : String) (t : Nat) :
    0 ≤ (analisis_fallback res texto t).porcentaje_viabilidad ∧
      (analisis_fallback res texto t).porcentaje_viabilidad ≤ 85 := by
  simp only [analisis_fallback]
  split <;> [skip; split <;> [skip; split]] <;> simp

/-! ## C1 — viability score bounds and the clamping scenario -/

/-- C1.  For every input string handed to the structured-response repair
routine (and every search-result context and clock value), the returned
analysis has `porcentaje_viabilidad` in `[0, 85]`; in particular, on the
payload reporting a 200% score with risk level BAJO, the result is the
clamped score 85 with risk level BAJO. -/
theorem viabilidad_acotada_y_escenario_clamp :
    (∀ (texto : String) (res : ResultadoBusqueda) (t : Nat),
        0 ≤ (parsear_respuesta_gemini texto res t).porcentaje_viabilidad ∧
          (parsear_respuesta_gemini texto res t).porcentaje_viabilidad ≤ 85) ∧
    (∀ (res : ResultadoBusqueda) (t : Nat),
        (parsear_respuesta_gemini "\x7b\"porcentaje_viabilidad\": 200, \"nivel_riesgo\": \"BAJO\"\x7d"
            res t).porcentaje_viabilidad = 85 ∧
        (parsear_respuesta_gemini "\x7b\"porcentaje_viabilidad\": 200, \"nivel_riesgo\": \"BAJO\"\x7d"
            res t).nivel_riesgo = Json.str "BAJO") := by
  constructor
  · intro texto res t
    simp only [parsear_respuesta_gemini]
    cases h : extraer_campos
        (match json_loads (limpiarRespuesta texto) with
          | some d => d
          | none => reparar_json_incompleto (limpiarRespuesta texto)) res t with
    | none => exact analisis_fallback_acotado res texto t
    | some a => exact extraer_campos_acotado _ res t a h
  · intro res t
    exact ⟨rfl, rfl⟩

/-! ## C3 — repair order, default payload, missing-brace scenario -/

/-- Counterexample to C3 as stated: on an unrepairable input the fixed
default payload is returned, and its risk-factor list is the one-element
list `["JSON incompleto"]`, not an empty factor list as the claim asserts. -/
theorem defecto_con_factores_no_vacios :
    json_loads (limpiarRespuesta "no es json") = none ∧
    json_loads (reparar_texto (limpiarRespuesta "no es json")) = none ∧
    (parsear_respuesta_gemini "no es json" resultadoEjemplo 0).porcentaje_viabilidad = 25 ∧
    (parsear_respuesta_gemini "no es json" resultadoEjemplo 0).nivel_riesgo = Json.str "ALTO" ∧
    (parsear_respuesta_gemini "no es json" resultadoEjemplo 0).marcas_conflictivas = Json.arr [] ∧
    (parsear_respuesta_gemini "no es json" resultadoEjemplo 0).factores_riesgo =
      Json.arr [Json.str "JSON incompleto"] ∧
    (parsear_respuesta_gemini "no es json" resultadoEjemplo 0).factores_riesgo ≠ Json.arr [] := by
  refine ⟨rfl, rfl, rfl, rfl, rfl, rfl, ?_⟩
  intro h
  exact absurd (congrArg longitudJson h) (by decide)

/-- C3 amended.  When the direct parse of the cleaned text fails, the
repaired candidate is the text followed by one closing quote when the
quote count is odd, then one `]` per unmatched `[`, then one closing brace
per unmatched opening brace, in that order; the repaired candidate is
re-parsed and drives the rest of the routine; when the re-parse also fails
the fixed default payload is used, which carries score 25, risk ALTO, an
empty conflict list, an empty favourable-factor list, the one-element
risk-factor list `["JSON incompleto"]` and the recommendation
`["Realizar análisis manual"]`; and the missing-brace scenario is repaired
by appending one closing brace and parses with score 40. -/
theorem reparacion_orden_y_defecto :
    (∀ texto : String,
        (reparar_texto texto).data =
          texto.data ++ (if contarChar texto '"' % 2 ≠ 0 then ['"'] else []) ++
            List.replicate (contarChar texto '[' - contarChar texto ']') ']' ++
            List.replicate (contarChar texto '\x7b' - contarChar texto '\x7d') '\x7d') ∧
    (∀ (texto : String) (res : ResultadoBusqueda) (t : Nat) (v : Json),
        json_loads (limpiarRespuesta texto) = none →
        json_loads (reparar_texto (limpiarRespuesta texto)) = some v →
        parsear_respuesta_gemini texto res t =
          (match extraer_campos v res t with
            | some a => a
            | none => analisis_fallback res texto t)) ∧
    (∀ (texto : String) (res : ResultadoBusqueda) (t : Nat),
        json_loads (limpiarRespuesta texto) = none →
        json_loads (reparar_texto (limpiarRespuesta texto)) = none →
        (parsear_respuesta_gemini texto res t).porcentaje_viabilidad = 25 ∧
        (parsear_respuesta_gemini texto res t).nivel_riesgo = Json.str "ALTO" ∧
        (parsear_respuesta_gemini texto res t).marcas_conflictivas = Json.arr [] ∧
        (parsear_respuesta_gemini texto res t).factores_favorables = Json.arr [] ∧
        (parsear_respuesta_gemini texto res t).factores_riesgo =
          Json.arr [Json.str "JSON incompleto"] ∧
        (parsear_respuesta_gemini texto res t).recomendaciones =
          Json.arr [Json.str "Realizar análisis manual"]) ∧
    (∀ (res : ResultadoBusqueda) (t : Nat),
        json_loads
            (limpiarRespuesta "\x7b\"porcentaje_viabilidad\": 40, \"nivel_riesgo\": \"ALTO\"") =
          none ∧
        reparar_texto
            (limpiarRespuesta "\x7b\"porcentaje_viabilidad\": 40, \"nivel_riesgo\": \"ALTO\"") =
          limpiarRespuesta "\x7b\"porcentaje_viabilidad\": 40, \"nivel_riesgo\": \"ALTO\"" ++
            "\x7d" ∧
        (parsear_respuesta_gemini "\x7b\"porcentaje_viabilidad\": 40, \"nivel_riesgo\": \"ALTO\""
            res t).porcentaje_viabilidad = 40) := by
  refine ⟨?_, ?_, ?_, ?_⟩
  · intro texto
    simp only [reparar_texto]
    split <;> simp [String.data_append]
  · intro texto res t v h1 h2
    simp only [parsear_respuesta_gemini, reparar_json_incompleto, h1, h2]
  · intro texto res t h1 h2
    simp only [parsear_respuesta_gemini, reparar_json_incompleto, h1, h2]
    exact ⟨rfl, rfl, rfl, rfl, rfl, rfl⟩
  · intro res t
    exact ⟨rfl, rfl, rfl⟩

/-- Witness for the amended C3 at a concrete unrepairable input. -/
theorem reparacion_orden_y_defecto_testigo :
    (parsear_respuesta_gemini "texto roto" resultadoEjemplo 3).porcentaje_viabilidad = 25 ∧
    (parsear_respuesta_gemini "texto roto" resultadoEjemplo 3).nivel_riesgo = Json.str "ALTO" ∧
    (parsear_respuesta_gemini "texto roto" resultadoEjemplo 3).marcas_conflictivas = Json.arr [] ∧
    (parsear_respuesta_gemini "texto roto" resultadoEjemplo 3).factores_favorables = Json.arr [] ∧
    (parsear_respuesta_gemini "texto roto" resultadoEjemplo 3).factores_riesgo =
      Json.arr [Json.str "JSON incompleto"] ∧
    (parsear_respuesta_gemini "texto roto" resultadoEjemplo 3).recomendaciones =
      Json.arr [Json.str "Realizar análisis manual"] :=
  reparacion_orden_y_defecto.2.2.1 "texto roto" resultadoEjemplo 3 rfl rfl

/-! ## C8 — determinism of the repair routine -/

/-- The clock parameter only enters field extraction through the timestamp
field. -/
lemma extraer_campos_fecha (data : Json) (res : ResultadoBusqueda) (t : Nat) :
    extraer_campos data res t =
      (extraer_campos data res 0).map (fun a => { a with fecha_analisis := t }) := by
  cases data <;> simp only [extraer_campos, Option.map_none', Option.map_some']
  case obj campos =>
    cases hp : python_int (jget campos "porcentaje_viabilidad" (.num 50)) <;> simp [hp]

/-- Counterexample to C8 as stated: two calls on the same input and the
same context taken at different clock values differ (in the
`fecha_analisis` field), so the output is not identical in every field. -/
theorem parseo_depende_del_reloj :
    parsear_respuesta_gemini "" resultadoEjemplo 0 ≠ parsear_respuesta_gemini "" resultadoEjemplo 1 :=
  fun h => absurd (congrArg AnalisisViabilidad.fecha_analisis h) (by decide)

/-- C8 amended.  The repair routine is deterministic in the input string
and the search-result context in every field except `fecha_analisis`,
which records the wall clock; there is no other hidden state. -/
theorem parseo_determinista_salvo_fecha :
    ∀ (texto : String) (res : ResultadoBusqueda) (t1 t2 : Nat),
      borraFecha (parsear_respuesta_gemini texto res t1) =
        borraFecha (parsear_respuesta_gemini texto res t2) := by
  intro texto res t1 t2
  simp only [parsear_respuesta_gemini]
  rw [extraer_campos_fecha _ res t1, extraer_campos_fecha _ res t2]
  cases extraer_campos
      (match json_loads (limpiarRespuesta texto) with
        | some d => d
        | none => reparar_json_incompleto (limpiarRespuesta texto)) res 0 with
  | none => rfl
  | some a => rfl

/-! ## C9 — the row mapper is total and skips short rows silently -/

/-- C9.  The row mapper returns `none` for every row with fewer than 8
cells and succeeds (without faulting) on every row with at least 8 cells;
cell access beyond the row, including a missing trailing logo column,
yields the empty string; and a skipped row leaves the records produced
from the adjacent rows of the same page unchanged. -/
theorem mapeador_total_filas_cortas :
    (∀ fila : Fila, fila.length < 8 → parsear_fila_marca fila = none) ∧
    (∀ fila : Fila, 8 ≤ fila.length → (parsear_fila_marca fila).isSome = true) ∧
    (∀ (celdas : List Celda) (i : Nat), celdas.length ≤ i → extraer_texto_celda celdas i = "") ∧
    (∀ (antes despues : List Fila) (fila : Fila), parsear_fila_marca fila = none →
        filasAMarcas (antes ++ fila :: despues) = filasAMarcas (antes ++ despues)) := by
  refine ⟨?_, ?_, ?_, ?_⟩
  · intro fila h
    simp [parsear_fila_marca, h]
  · intro fila h
    simp [parsear_fila_marca, Nat.not_lt.mpr h]
  · intro celdas i h
    simp [extraer_texto_celda, Nat.not_lt.mpr h]
  · intro antes despues fila h
    simp [filasAMarcas, List.filterMap_append, List.filterMap_cons, h]

/-- Witness for C9: a 5-cell row is mapped to `none` and its presence does
not change the records extracted from the surrounding valid rows. -/
theorem mapeador_total_filas_cortas_testigo :
    parsear_fila_marca filaCorta = none ∧
    filasAMarcas [filaValida, filaCorta, filaMala] = filasAMarcas [filaValida, filaMala] :=
  ⟨mapeador_total_filas_cortas.1 filaCorta (by decide),
   mapeador_total_filas_cortas.2.2.2 [filaValida] [filaMala] filaCorta
     (mapeador_total_filas_cortas.1 filaCorta (by decide))⟩

/-! ## C10 — which CDATA block supplies the records of a page -/

/-- Counterexample to C10 as stated: in a response whose first
marker-bearing CDATA block has no locatable results tbody, the records are
taken from a later block, so the page record list does not come from the
first block containing a results-table marker. -/
theorem bloque_posterior_parseado :
    bloqueSinTbody.contieneTabla = true ∧
    parsear_resultados_fonetica (.ajaxXml [bloqueSinTbody, bloqueConTabla]) =
      ([mkMarcaInfo "BUENA" "100001" "555" "TITULAR SA" "30" "" "M"], 1) := by
  constructor
  · rfl
  · decide

/-- C10 amended.  The CDATA blocks are scanned in document order and the
records of a page come from at most one block: the first block that both
contains a results-table marker and yields a results tbody.  Marker blocks
without a tbody are skipped, and every block after the contributing one is
ignored.  When no block contributes, the page parses to no records. -/
theorem un_solo_bloque_contribuye :
    (∀ bloques : List BloqueCData, (∀ b ∈ bloques, contribuye b = false) →
        buscarEnBloques bloques = ([], 0)) ∧
    (∀ (antes : List BloqueCData) (b : BloqueCData) (despues : List BloqueCData)
        (filas : List Fila),
        (∀ b2 ∈ antes, contribuye b2 = false) →
        b.contieneTabla = true → b.tbody = some filas →
        buscarEnBloques (antes ++ b :: despues) =
          (filasAMarcas filas, (filasAMarcas filas).length + b.totalMas.getD 0)) := by
  constructor
  · intro bloques h
    induction bloques with
    | nil => rfl
    | cons b resto ih =>
      have hb := h b (by simp)
      have hresto := ih (fun b2 hb2 => h b2 (by simp [hb2]))
      simp only [buscarEnBloques]
      by_cases hc : b.contieneTabla
      · cases ht : b.tbody with
        | none => simp [hc, ht, hresto]
        | some filas => exact absurd hb (by simp [contribuye, hc, ht])
      · simp [hc, hresto]
  · intro antes b despues filas hantes hb ht
    induction antes with
    | nil =>
      simp only [List.nil_append, buscarEnBloques, hb, ht]
      cases htm : b.totalMas <;> simp [htm]
    | cons b2 resto ih =>
      have hb2 := hantes b2 (by simp)
      have ih2 := ih (fun b3 hb3 => hantes b3 (by simp [hb3]))
      simp only [List.cons_append, buscarEnBloques]
      by_cases hc : b2.contieneTabla
      · cases ht2 : b2.tbody with
        | none => simp [hc, ht2, ih2]
        | some filas2 => exact absurd hb2 (by simp [contribuye, hc, ht2])
      · simp [hc, ih2]

/-- Witness for the amended C10: the block after a skipped marker block
supplies the rows and a trailing block is ignored. -/
theorem un_solo_bloque_contribuye_testigo :
    buscarEnBloques [bloqueSinTbody, bloqueConTabla, bloqueSinTbody] =
      (filasAMarcas [filaValida], (filasAMarcas [filaValida]).length + 0) := by
  have h := un_solo_bloque_contribuye.2 [bloqueSinTbody] bloqueConTabla [bloqueSinTbody]
    [filaValida] (by decide) (by decide) (by decide)
  simpa using h

/-! ## Trace structure of the page loop -/

/-- The events of one run of the page loop are exactly a block of page
requests with consecutive page indices starting at the loop entry page,
all tagged with the running attempt and carrying the same ViewState; the
loop makes at least one request when it has fuel and never more requests
than fuel. -/
lemma traza_paginas (env : Entorno) (a : Nat) (vs : String) :
    ∀ (fuel p0 : Nat) (acc : List MarcaInfo) (tot : Nat),
      ∃ k, k ≤ fuel ∧ (0 < fuel → 0 < k) ∧
        (buclePaginas env a vs p0 fuel acc tot).2 =
          (List.range k).map (fun i => Evento.peticionPagina a (p0 + i) vs) := by
  intro fuel
  induction fuel with
  | zero => intro p0 acc tot; exact ⟨0, by simp [buclePaginas]⟩
  | succ f ih =>
    intro p0 acc tot
    simp only [buclePaginas]
    cases h : env.pagina a p0 with
    | timeout => exact ⟨1, by omega, fun _ => by omega, rfl⟩
    | errorRed msg => exact ⟨1, by omega, fun _ => by omega, rfl⟩
    | otraExcepcion msg => exact ⟨1, by omega, fun _ => by omega, rfl⟩
    | ok r =>
      dsimp only
      rcases hmt : parsear_resultados_fonetica r with ⟨mp, tt⟩
      dsimp only
      by_cases h1 : mp.isEmpty = true
      · exact ⟨1, by omega, fun _ => by omega, by rw [if_pos h1]; rfl⟩
      · by_cases h2 : mp.length < 15
        · exact ⟨1, by omega, fun _ => by omega, by rw [if_neg h1, if_pos h2]; rfl⟩
        · by_cases h3 : (if tt > 0 then tt else (acc ++ mp).length) > 0 ∧
              (acc ++ mp).length ≥ (if tt > 0 then tt else (acc ++ mp).length)
          · exact ⟨1, by omega, fun _ => by omega,
              by rw [if_neg h1, if_neg h2, if_pos h3]; rfl⟩
          · obtain ⟨k, hk, _, htraza⟩ :=
              ih (p0 + 1) (acc ++ mp) (if tt > 0 then tt else (acc ++ mp).length)
            refine ⟨k + 1, by omega, fun _ => by omega, ?_⟩
            rw [if_neg h1, if_neg h2, if_neg h3]
            dsimp only
            rw [htraza, List.range_succ_eq_map]
            simp only [List.map_cons, List.map_map, Nat.add_zero]
            congr 1
            apply List.map_congr_left
            intro i _
            simp only [Function.comp_apply]
            congr 1
            omega

/-- Every event of one page-loop run is a page request of the running
attempt with the carried ViewState and a page index below the fuel, and
its presence implies the page-0 request is also in the run. -/
lemma miembro_ejecutar (env : Entorno) (a : Nat) (vsStr : String) (e : Evento)
    (he : e ∈ (ejecutar_busqueda_fonetica env a vsStr).2) :
    ∃ p, e = Evento.peticionPagina a p vsStr ∧ p < max_paginas ∧
      Evento.peticionPagina a 0 vsStr ∈ (ejecutar_busqueda_fonetica env a vsStr).2 := by
  obtain ⟨k, hk, _, htr⟩ := traza_paginas env a vsStr max_paginas 0 [] 0
  rw [ejecutar_busqueda_fonetica, htr] at he ⊢
  simp only [List.mem_map, List.mem_range] at he
  obtain ⟨i, hi, hei⟩ := he
  subst hei
  refine ⟨i, by simp, by omega, ?_⟩
  simp only [List.mem_map, List.mem_range]
  exact ⟨0, by omega, by simp⟩

/-- The page loop records at most `max_paginas` events. -/
lemma longitud_ejecutar (env : Entorno) (a : Nat) (vsStr : String) :
    (ejecutar_busqueda_fonetica env a vsStr).2.length ≤ max_paginas := by
  obtain ⟨k, hk, _, htr⟩ := traza_paginas env a vsStr max_paginas 0 [] 0
  rw [ejecutar_busqueda_fonetica, htr]
  simpa using hk

/-- The events preceding the page loop of an attempt carry that attempt
number, are never page requests, and are the delay or the fetch event. -/
lemma eventosPrevios_spec (intento : Nat) (vs : Option String) (e : Evento)
    (he : e ∈ eventosPrevios intento vs) :
    intentoDe e = intento ∧ esPeticionPagina e = false ∧
      (e = Evento.dormir intento DELAY_ENTRE_PETICIONES ∨
        e = Evento.obtenerViewState intento) := by
  simp only [eventosPrevios, List.mem_append] at he
  have hd : e ∈ (if 1 < intento then [Evento.dormir intento DELAY_ENTRE_PETICIONES] else []) →
      e = Evento.dormir intento DELAY_ENTRE_PETICIONES := by
    split <;> simp_all
  have hv : e ∈ (if vsFalsy vs = true then [Evento.obtenerViewState intento] else []) →
      e = Evento.obtenerViewState intento := by
    split <;> simp_all
  rcases he with he | he
  · have h := hd he
    subst h
    exact ⟨rfl, rfl, Or.inl rfl⟩
  · have h := hv he
    subst h
    exact ⟨rfl, rfl, Or.inr rfl⟩

/-- Attempt numbers of recorded events are bounded below by the running
attempt and above by the attempt budget. -/
lemma bucle_intento_cotas (env : Entorno) (marca : String) (clase : Option Int) (reint : Nat) :
    ∀ (fuel intento : Nat) (vs : Option String) (e : Evento),
      e ∈ (bucleIntentos env marca clase reint intento fuel vs).2 →
      intento ≤ intentoDe e ∧ (intento ≤ reint → intentoDe e ≤ reint) := by
  intro fuel
  induction fuel with
  | zero => intro intento vs e he; simp [bucleIntentos] at he
  | succ f ih =>
    intro intento vs e he
    simp only [bucleIntentos] at he
    cases hc : (ejecutar_busqueda_fonetica env intento ((vsSiguiente env intento vs).getD "")).1 with
    | exitoI marcas total =>
      rw [hc] at he
      dsimp only at he
      rcases List.mem_append.mp he with h | h
      · obtain ⟨h1, _, _⟩ := eventosPrevios_spec intento vs e h
        omega
      · obtain ⟨p, hep, _, _⟩ := miembro_ejecutar env intento _ e h
        subst hep
        simp only [intentoDe]
        omega
    | fallaFatal msg =>
      rw [hc] at he
      dsimp only at he
      rcases List.mem_append.mp he with h | h
      · obtain ⟨h1, _, _⟩ := eventosPrevios_spec intento vs e h
        omega
      · obtain ⟨p, hep, _, _⟩ := miembro_ejecutar env intento _ e h
        subst hep
        simp only [intentoDe]
        omega
    | fallaReintento tf =>
      rw [hc] at he
      dsimp only at he
      by_cases hr : intento = reint
      · rw [if_pos hr] at he
        dsimp only at he
        rcases List.mem_append.mp he with h | h
        · obtain ⟨h1, _, _⟩ := eventosPrevios_spec intento vs e h
          omega
        · obtain ⟨p, hep, _, _⟩ := miembro_ejecutar env intento _ e h
          subst hep
          simp only [intentoDe]
          omega
      · rw [if_neg hr] at he
        dsimp only at he
        rcases List.mem_append.mp he with h | h
        · rcases List.mem_append.mp h with h2 | h2
          · obtain ⟨h1, _, _⟩ := eventosPrevios_spec intento vs e h2
            omega
          · obtain ⟨p, hep, _, _⟩ := miembro_ejecutar env intento _ e h2
            subst hep
            simp only [intentoDe]
            omega
        · obtain ⟨h1, h2⟩ := ih (intento + 1) (vsSiguiente env intento vs) e h
          exact ⟨by omega, fun hle => h2 (by omega)⟩

/-- A bootstrap-fetch event in the pre-page-loop segment implies the held
ViewState was falsy, and carries the running attempt number. -/
lemma eventosPrevios_fetch (intento : Nat) (vs : Option String) (b : Nat)
    (hb : Evento.obtenerViewState b ∈ eventosPrevios intento vs) :
    vsFalsy vs = true ∧ b = intento := by
  simp only [eventosPrevios, List.mem_append] at hb
  rcases hb with hb | hb
  · exfalso
    revert hb
    split <;> simp
  · revert hb
    split <;> simp_all

/-- Every retry attempt (attempt number above 1) that issues a page
request is preceded by the fixed sleep event of that attempt. -/
lemma bucle_dormir_antes (env : Entorno) (marca : String) (clase : Option Int) (reint : Nat) :
    ∀ (fuel intento : Nat) (vs : Option String) (a p : Nat) (v : String),
      Evento.peticionPagina a p v ∈ (bucleIntentos env marca clase reint intento fuel vs).2 →
      1 < a →
      Evento.dormir a DELAY_ENTRE_PETICIONES ∈
        (bucleIntentos env marca clase reint intento fuel vs).2 := by
  intro fuel
  induction fuel with
  | zero => intro intento vs a p v he _; simp [bucleIntentos] at he
  | succ f ih =>
    intro intento vs a p v he ha
    simp only [bucleIntentos] at he ⊢
    cases hc : (ejecutar_busqueda_fonetica env intento ((vsSiguiente env intento vs).getD "")).1 with
    | exitoI marcas total =>
      rw [hc] at he
      dsimp only at he ⊢
      rcases List.mem_append.mp he with h | h
      · obtain ⟨_, _, h3⟩ := eventosPrevios_spec intento vs _ h
        rcases h3 with h3 | h3 <;> exact absurd h3 (by simp)
      · obtain ⟨q, hep, _, _⟩ := miembro_ejecutar env intento _ _ h
        simp only [Evento.peticionPagina.injEq] at hep
        obtain ⟨hai, _, _⟩ := hep
        subst hai
        exact List.mem_append.mpr (Or.inl (by simp [eventosPrevios, ha]))
    | fallaFatal msg =>
      rw [hc] at he
      dsimp only at he ⊢
      rcases List.mem_append.mp he with h | h
      · obtain ⟨_, _, h3⟩ := eventosPrevios_spec intento vs _ h
        rcases h3 with h3 | h3 <;> exact absurd h3 (by simp)
      · obtain ⟨q, hep, _, _⟩ := miembro_ejecutar env intento _ _ h
        simp only [Evento.peticionPagina.injEq] at hep
        obtain ⟨hai, _, _⟩ := hep
        subst hai
        exact List.mem_append.mpr (Or.inl (by simp [eventosPrevios, ha]))
    | fallaReintento tf =>
      rw [hc] at he
      dsimp only at he ⊢
      by_cases hr : intento = reint
      · rw [if_pos hr] at he ⊢
        dsimp only at he ⊢
        rcases List.mem_append.mp he with h | h
        · obtain ⟨_, _, h3⟩ := eventosPrevios_spec intento vs _ h
          rcases h3 with h3 | h3 <;> exact absurd h3 (by simp)
        · obtain ⟨q, hep, _, _⟩ := miembro_ejecutar env intento _ _ h
          simp only [Evento.peticionPagina.injEq] at hep
          obtain ⟨hai, _, _⟩ := hep
          subst hai
          exact List.mem_append.mpr (Or.inl (by simp [eventosPrevios, ha]))
      · rw [if_neg hr] at he ⊢
        dsimp only at he ⊢
        rcases List.mem_append.mp he with h | h
        · rcases List.mem_append.mp h with h2 | h2
          · obtain ⟨_, _, h3⟩ := eventosPrevios_spec intento vs _ h2
            rcases h3 with h3 | h3 <;> exact absurd h3 (by simp)
          · obtain ⟨q, hep, _, _⟩ := miembro_ejecutar env intento _ _ h2
            simp only [Evento.peticionPagina.injEq] at hep
            obtain ⟨hai, _, _⟩ := hep
            subst hai
            exact List.mem_append.mpr
              (Or.inl (List.mem_append.mpr (Or.inl (by simp [eventosPrevios, ha]))))
        · exact List.mem_append.mpr (Or.inr (ih (intento + 1) (vsSiguiente env intento vs) a p v h ha))

/-- Every recorded page request has a page index below the ceiling, and
its attempt also issued the page-0 request with the same ViewState:
pagination restarts from page 0 on every attempt. -/
lemma bucle_pagina_cero (env : Entorno) (marca : String) (clase : Option Int) (reint : Nat) :
    ∀ (fuel intento : Nat) (vs : Option String) (a p : Nat) (v : String),
      Evento.peticionPagina a p v ∈ (bucleIntentos env marca clase reint intento fuel vs).2 →
      p < max_paginas ∧
        Evento.peticionPagina a 0 v ∈ (bucleIntentos env marca clase reint intento fuel vs).2 := by
  intro fuel
  induction fuel with
  | zero => intro intento vs a p v he; simp [bucleIntentos] at he
  | succ f ih =>
    intro intento vs a p v he
    simp only [bucleIntentos] at he ⊢
    cases hc : (ejecutar_busqueda_fonetica env intento ((vsSiguiente env intento vs).getD "")).1 with
    | exitoI marcas total =>
      rw [hc] at he
      dsimp only at he ⊢
      rcases List.mem_append.mp he with h | h
      · obtain ⟨_, _, h3⟩ := eventosPrevios_spec intento vs _ h
        rcases h3 with h3 | h3 <;> exact absurd h3 (by simp)
      · obtain ⟨q, hep, hq, h0⟩ := miembro_ejecutar env intento _ _ h
        simp only [Evento.peticionPagina.injEq] at hep
        obtain ⟨hai, hpq, hv⟩ := hep
        subst hai; subst hpq; subst hv
        exact ⟨hq, List.mem_append.mpr (Or.inr h0)⟩
    | fallaFatal msg =>
      rw [hc] at he
      dsimp only at he ⊢
      rcases List.mem_append.mp he with h | h
      · obtain ⟨_, _, h3⟩ := eventosPrevios_spec intento vs _ h
        rcases h3 with h3 | h3 <;> exact absurd h3 (by simp)
      · obtain ⟨q, hep, hq, h0⟩ := miembro_ejecutar env intento _ _ h
        simp only [Evento.peticionPagina.injEq] at hep
        obtain ⟨hai, hpq, hv⟩ := hep
        subst hai; subst hpq; subst hv
        exact ⟨hq, List.mem_append.mpr (Or.inr h0)⟩
    | fallaReintento tf =>
      rw [hc] at he
      dsimp only at he ⊢
      by_cases hr : intento = reint
      · rw [if_pos hr] at he ⊢
        dsimp only at he ⊢
        rcases List.mem_append.mp he with h | h
        · obtain ⟨_, _, h3⟩ := eventosPrevios_spec intento vs _ h
          rcases h3 with h3 | h3 <;> exact absurd h3 (by simp)
        · obtain ⟨q, hep, hq, h0⟩ := miembro_ejecutar env intento _ _ h
          simp only [Evento.peticionPagina.injEq] at hep
          obtain ⟨hai, hpq, hv⟩ := hep
          subst hai; subst hpq; subst hv
          exact ⟨hq, List.mem_append.mpr (Or.inr h0)⟩
      · rw [if_neg hr] at he ⊢
        dsimp only at he ⊢
        rcases List.mem_append.mp he with h | h
        · rcases List.mem_append.mp h with h2 | h2
          · obtain ⟨_, _, h3⟩ := eventosPrevios_spec intento vs _ h2
            rcases h3 with h3 | h3 <;> exact absurd h3 (by simp)
          · obtain ⟨q, hep, hq, h0⟩ := miembro_ejecutar env intento _ _ h2
            simp only [Evento.peticionPagina.injEq] at hep
            obtain ⟨hai, hpq, hv⟩ := hep
            subst hai; subst hpq; subst hv
            exact ⟨hq, List.mem_append.mpr (Or.inl (List.mem_append.mpr (Or.inr h0)))⟩
        · obtain ⟨hq, h0⟩ := ih (intento + 1) (vsSiguiente env intento vs) a p v h
          exact ⟨hq, List.mem_append.mpr (Or.inr h0)⟩

/-- When a truthy ViewState is already held no bootstrap fetch ever
happens: the held token is reused across all attempts. -/
lemma bucle_sin_fetch (env : Entorno) (marca : String) (clase : Option Int) (reint : Nat) :
    ∀ (fuel intento : Nat) (vs : Option String), vsFalsy vs = false →
      ∀ b : Nat, Evento.obtenerViewState b ∉ (bucleIntentos env marca clase reint intento fuel vs).2 := by
  intro fuel
  induction fuel with
  | zero => intro intento vs _ b he; simp [bucleIntentos] at he
  | succ f ih =>
    intro intento vs hvf b he
    simp only [bucleIntentos] at he
    cases hc : (ejecutar_busqueda_fonetica env intento ((vsSiguiente env intento vs).getD "")).1 with
    | exitoI marcas total =>
      rw [hc] at he
      dsimp only at he
      rcases List.mem_append.mp he with h | h
      · exact absurd (eventosPrevios_fetch intento vs b h).1 (by simp [hvf])
      · obtain ⟨q, hep, _, _⟩ := miembro_ejecutar env intento _ _ h
        exact absurd hep (by simp)
    | fallaFatal msg =>
      rw [hc] at he
      dsimp only at he
      rcases List.mem_append.mp he with h | h
      · exact absurd (eventosPrevios_fetch intento vs b h).1 (by simp [hvf])
      · obtain ⟨q, hep, _, _⟩ := miembro_ejecutar env intento _ _ h
        exact absurd hep (by simp)
    | fallaReintento tf =>
      rw [hc] at he
      dsimp only at he
      by_cases hr : intento = reint
      · rw [if_pos hr] at he
        dsimp only at he
        rcases List.mem_append.mp he with h | h
        · exact absurd (eventosPrevios_fetch intento vs b h).1 (by simp [hvf])
        · obtain ⟨q, hep, _, _⟩ := miembro_ejecutar env intento _ _ h
          exact absurd hep (by simp)
      · rw [if_neg hr] at he
        dsimp only at he
        rcases List.mem_append.mp he with h | h
        · rcases List.mem_append.mp h with h2 | h2
          · exact absurd (eventosPrevios_fetch intento vs b h2).1 (by simp [hvf])
          · obtain ⟨q, hep, _, _⟩ := miembro_ejecutar env intento _ _ h2
            exact absurd hep (by simp)
        · have hvs2 : vsSiguiente env intento vs = vs := by simp [vsSiguiente, hvf]
          rw [hvs2] at h
          exact ih (intento + 1) vs hvf b h

/-- When a truthy ViewState is already held, every page request of the
query carries exactly that token. -/
lemma bucle_pet_vs (env : Entorno) (marca : String) (clase : Option Int) (reint : Nat) :
    ∀ (fuel intento : Nat) (vs : Option String), vsFalsy vs = false →
      ∀ (a p : Nat) (v : String),
        Evento.peticionPagina a p v ∈ (bucleIntentos env marca clase reint intento fuel vs).2 →
        v = vs.getD "" := by
  intro fuel
  induction fuel with
  | zero => intro intento vs _ a p v he; simp [bucleIntentos] at he
  | succ f ih =>
    intro intento vs hvf a p v he
    have hvs2 : vsSiguiente env intento vs = vs := by simp [vsSiguiente, hvf]
    simp only [bucleIntentos] at he
    cases hc : (ejecutar_busqueda_fonetica env intento ((vsSiguiente env intento vs).getD "")).1 with
    | exitoI marcas total =>
      rw [hc] at he
      dsimp only at he
      rcases List.mem_append.mp he with h | h
      · obtain ⟨_, _, h3⟩ := eventosPrevios_spec intento vs _ h
        rcases h3 with h3 | h3 <;> exact absurd h3 (by simp)
      · obtain ⟨q, hep, _, _⟩ := miembro_ejecutar env intento _ _ h
        rw [hvs2] at hep
        simp only [Evento.peticionPagina.injEq] at hep
        exact hep.2.2
    | fallaFatal msg =>
      rw [hc] at he
      dsimp only at he
      rcases List.mem_append.mp he with h | h
      · obtain ⟨_, _, h3⟩ := eventosPrevios_spec intento vs _ h
        rcases h3 with h3 | h3 <;> exact absurd h3 (by simp)
      · obtain ⟨q, hep, _, _⟩ := miembro_ejecutar env intento _ _ h
        rw [hvs2] at hep
        simp only [Evento.peticionPagina.injEq] at hep
        exact hep.2.2
    | fallaReintento tf =>
      rw [hc] at he
      dsimp only at he
      by_cases hr : intento = reint
      · rw [if_pos hr] at he
        dsimp only at he
        rcases List.mem_append.mp he with h | h
        · obtain ⟨_, _, h3⟩ := eventosPrevios_spec intento vs _ h
          rcases h3 with h3 | h3 <;> exact absurd h3 (by simp)
        · obtain ⟨q, hep, _, _⟩ := miembro_ejecutar env intento _ _ h
          rw [hvs2] at hep
          simp only [Evento.peticionPagina.injEq] at hep
          exact hep.2.2
      · rw [if_neg hr] at he
        dsimp only at he
        rcases List.mem_append.mp he with h | h
        · rcases List.mem_append.mp h with h2 | h2
          · obtain ⟨_, _, h3⟩ := eventosPrevios_spec intento vs _ h2
            rcases h3 with h3 | h3 <;> exact absurd h3 (by simp)
          · obtain ⟨q, hep, _, _⟩ := miembro_ejecutar env intento _ _ h2
            rw [hvs2] at hep
            simp only [Evento.peticionPagina.injEq] at hep
            exact hep.2.2
        · rw [hvs2] at h
          exact ih (intento + 1) vs hvf a p v h

/-- Two bootstrap fetches can only happen when the earlier one came back
empty: a token once acquired with a non-empty value is reused, never
re-fetched. -/
lemma bucle_fetch_dos (env : Entorno) (marca : String) (clase : Option Int) (reint : Nat) :
    ∀ (fuel intento : Nat) (vs : Option String) (a b : Nat), a < b →
      Evento.obtenerViewState a ∈ (bucleIntentos env marca clase reint intento fuel vs).2 →
      Evento.obtenerViewState b ∈ (bucleIntentos env marca clase reint intento fuel vs).2 →
      env.bootstrap a = "" := by
  intro fuel
  induction fuel with
  | zero => intro intento vs a b _ ha _; simp [bucleIntentos] at ha
  | succ f ih =>
    intro intento vs a b hab ha hb
    by_cases hvf : vsFalsy vs = true
    case neg =>
      exact absurd ha
        (bucle_sin_fetch env marca clase reint (f + 1) intento vs (by simpa using hvf) a)
    case pos =>
      simp only [bucleIntentos] at ha hb
      cases hc : (ejecutar_busqueda_fonetica env intento ((vsSiguiente env intento vs).getD "")).1 with
      | exitoI marcas total =>
        rw [hc] at ha hb
        dsimp only at ha hb
        have hfa : a = intento := by
          rcases List.mem_append.mp ha with h | h
          · exact (eventosPrevios_fetch intento vs a h).2
          · obtain ⟨q, hep, _, _⟩ := miembro_ejecutar env intento _ _ h
            exact absurd hep (by simp)
        have hfb : b = intento := by
          rcases List.mem_append.mp hb with h | h
          · exact (eventosPrevios_fetch intento vs b h).2
          · obtain ⟨q, hep, _, _⟩ := miembro_ejecutar env intento _ _ h
            exact absurd hep (by simp)
        omega
      | fallaFatal msg =>
        rw [hc] at ha hb
        dsimp only at ha hb
        have hfa : a = intento := by
          rcases List.mem_append.mp ha with h | h
          · exact (eventosPrevios_fetch intento vs a h).2
          · obtain ⟨q, hep, _, _⟩ := miembro_ejecutar env intento _ _ h
            exact absurd hep (by simp)
        have hfb : b = intento := by
          rcases List.mem_append.mp hb with h | h
          · exact (eventosPrevios_fetch intento vs b h).2
          · obtain ⟨q, hep, _, _⟩ := miembro_ejecutar env intento _ _ h
            exact absurd hep (by simp)
        omega
      | fallaReintento tf =>
        rw [hc] at ha hb
        dsimp only at ha hb
        by_cases hr : intento = reint
        · rw [if_pos hr] at ha hb
          dsimp only at ha hb
          have hfa : a = intento := by
            rcases List.mem_append.mp ha with h | h
            · exact (eventosPrevios_fetch intento vs a h).2
            · obtain ⟨q, hep, _, _⟩ := miembro_ejecutar env intento _ _ h
              exact absurd hep (by simp)
          have hfb : b = intento := by
            rcases List.mem_append.mp hb with h | h
            · exact (eventosPrevios_fetch intento vs b h).2
            · obtain ⟨q, hep, _, _⟩ := miembro_ejecutar env intento _ _ h
              exact absurd hep (by simp)
          omega
        · rw [if_neg hr] at ha hb
          dsimp only at ha hb
          have hext : ∀ x : Nat,
              Evento.obtenerViewState x ∈
                (eventosPrevios intento vs ++
                    (ejecutar_busqueda_fonetica env intento ((vsSiguiente env intento vs).getD "")).2 ++
                  (bucleIntentos env marca clase reint (intento + 1) f (vsSiguiente env intento vs)).2) →
              x = intento ∨
                Evento.obtenerViewState x ∈
                  (bucleIntentos env marca clase reint (intento + 1) f (vsSiguiente env intento vs)).2 := by
            intro x hx
            rcases List.mem_append.mp hx with h | h
            · rcases List.mem_append.mp h with h2 | h2
              · exact Or.inl ((eventosPrevios_fetch intento vs x h2).2)
              · obtain ⟨q, hep, _, _⟩ := miembro_ejecutar env intento _ _ h2
                exact absurd hep (by simp)
            · exact Or.inr h
          rcases hext a ha with haI | haR <;> rcases hext b hb with hbI | hbR
          · omega
          · by_cases hbo : env.bootstrap intento = ""
            · rw [haI]; exact hbo
            · have hvsval : vsSiguiente env intento vs = some (env.bootstrap intento) := by
                simp [vsSiguiente, hvf]
              have hvs2 : vsFalsy (vsSiguiente env intento vs) = false := by
                rw [hvsval]
                simp [vsFalsy, hbo]
              exact absurd hbR
                (bucle_sin_fetch env marca clase reint f (intento + 1) _ hvs2 b)
          · obtain ⟨h1, _⟩ :=
              bucle_intento_cotas env marca clase reint f (intento + 1)
                (vsSiguiente env intento vs) _ haR
            simp only [intentoDe] at h1
            omega
          · exact ih (intento + 1) (vsSiguiente env intento vs) a b hab haR hbR

/-- Each attempt records at most `max_paginas` page requests. -/
lemma bucle_cuenta (env : Entorno) (marca : String) (clase : Option Int) (reint : Nat) :
    ∀ (fuel intento : Nat) (vs : Option String) (a : Nat),
      List.countP (fun e => esPeticionPagina e && (intentoDe e == a))
        (bucleIntentos env marca clase reint intento fuel vs).2 ≤ max_paginas := by
  intro fuel
  induction fuel with
  | zero => intro intento vs a; simp [bucleIntentos]
  | succ f ih =>
    intro intento vs a
    simp only [bucleIntentos]
    have hprev : List.countP (fun e => esPeticionPagina e && (intentoDe e == a))
        (eventosPrevios intento vs) = 0 :=
      List.countP_eq_zero.mpr (fun e hmem => by
        obtain ⟨_, h2, _⟩ := eventosPrevios_spec intento vs e hmem
        simp [h2])
    have hcuerpo : List.countP (fun e => esPeticionPagina e && (intentoDe e == a))
        (ejecutar_busqueda_fonetica env intento ((vsSiguiente env intento vs).getD "")).2 ≤
          max_paginas :=
      le_trans (List.countP_le_length _)
        (longitud_ejecutar env intento ((vsSiguiente env intento vs).getD ""))
    cases hc : (ejecutar_busqueda_fonetica env intento ((vsSiguiente env intento vs).getD "")).1 with
    | exitoI marcas total =>
      dsimp only
      rw [List.countP_append, hprev]
      omega
    | fallaFatal msg =>
      dsimp only
      rw [List.countP_append, hprev]
      omega
    | fallaReintento tf =>
      dsimp only
      by_cases hr : intento = reint
      · rw [if_pos hr]
        dsimp only
        rw [List.countP_append, hprev]
        omega
      · rw [if_neg hr]
        dsimp only
        rw [List.countP_append, List.countP_append, hprev]
        by_cases haeq : a = intento
        · have hz : List.countP (fun e => esPeticionPagina e && (intentoDe e == a))
              (bucleIntentos env marca clase reint (intento + 1) f (vsSiguiente env intento vs)).2 =
                0 :=
            List.countP_eq_zero.mpr (fun e hmem => by
              obtain ⟨h1, _⟩ :=
                bucle_intento_cotas env marca clase reint f (intento + 1)
                  (vsSiguiente env intento vs) e hmem
              simp only [Bool.and_eq_true, beq_iff_eq, not_and]
              intro _ h2
              omega)
          omega
        · have hz : List.countP (fun e => esPeticionPagina e && (intentoDe e == a))
              (ejecutar_busqueda_fonetica env intento ((vsSiguiente env intento vs).getD "")).2 =
                0 :=
            List.countP_eq_zero.mpr (fun e hmem => by
              obtain ⟨q, hep, _, _⟩ := miembro_ejecutar env intento _ _ hmem
              subst hep
              simp only [esPeticionPagina, intentoDe, Bool.true_and, beq_iff_eq]
              exact fun h => haeq h.symm)
          have hr2 := ih (intento + 1) (vsSiguiente env intento vs) a
          omega

/-- A query either rejects its input with an empty trace, or runs the
retry loop from attempt 1 with the configured attempt budget. -/
lemma buscar_traza (env : Entorno) (marca : String) (clase : Option Int)
    (mr : Option Int) (vs0 : Option String) :
    (buscar_fonetica env marca clase mr vs0).2 = [] ∨
      buscar_fonetica env marca clase mr vs0 =
        bucleIntentos env marca clase (reintentos_de mr).toNat 1 (reintentos_de mr).toNat vs0 := by
  simp only [buscar_fonetica]
  by_cases h1 : (marca = "" ∨ pyStrip marca = "")
  · rw [if_pos h1]
    left
    rfl
  · rw [if_neg h1]
    by_cases h2 : claseInvalida clase = true
    · rw [if_pos h2]
      left
      rfl
    · rw [if_neg h2]
      right
      rfl

/-! ## C4 — retry structure: attempts, delay, restart and token reuse -/

/-- Counterexample to C4 as stated: with the registry timing out on the
first attempt, the full observable trace shows a single bootstrap fetch;
the second attempt reuses the first token "VS1" (the environment would
hand out "VS2" on a second fetch) instead of clearing and re-fetching
it. -/
theorem viewstate_reutilizado_en_reintento :
    (buscar_fonetica entornoReintento "MARCA" none none none).2 =
      [ Evento.obtenerViewState 1, Evento.peticionPagina 1 0 "VS1",
        Evento.dormir 2 2, Evento.peticionPagina 2 0 "VS1"] ∧
    entornoReintento.bootstrap 2 = "VS2" := by
  constructor
  · decide
  · rfl

/-- C4 amended.  The query makes at most `reintentos_de max_reintentos`
attempts (3 by default); every retry attempt is preceded by the fixed
2-second sleep of that attempt; every attempt restarts pagination from
page 0 under the page ceiling; and the ViewState is reused rather than
cleared and re-fetched: two fetches can only happen when the earlier one
returned an empty token, and a held truthy token suppresses fetching
entirely and is carried by every page request. -/
theorem reintentos_estructura (env : Entorno) (marca : String) (clase : Option Int)
    (mr : Option Int) (vs0 : Option String) :
    (∀ e ∈ (buscar_fonetica env marca clase mr vs0).2,
        1 ≤ intentoDe e ∧ intentoDe e ≤ (reintentos_de mr).toNat) ∧
    (mr = none → ∀ e ∈ (buscar_fonetica env marca clase mr vs0).2, intentoDe e ≤ 3) ∧
    DELAY_ENTRE_PETICIONES = 2 ∧
    (∀ (a p : Nat) (v : String),
        Evento.peticionPagina a p v ∈ (buscar_fonetica env marca clase mr vs0).2 → 1 < a →
        Evento.dormir a DELAY_ENTRE_PETICIONES ∈ (buscar_fonetica env marca clase mr vs0).2) ∧
    (∀ (a p : Nat) (v : String),
        Evento.peticionPagina a p v ∈ (buscar_fonetica env marca clase mr vs0).2 →
        p < max_paginas ∧
          Evento.peticionPagina a 0 v ∈ (buscar_fonetica env marca clase mr vs0).2) ∧
    (∀ a b : Nat, a < b →
        Evento.obtenerViewState a ∈ (buscar_fonetica env marca clase mr vs0).2 →
        Evento.obtenerViewState b ∈ (buscar_fonetica env marca clase mr vs0).2 →
        env.bootstrap a = "") ∧
    (vsFalsy vs0 = false →
        (∀ b : Nat, Evento.obtenerViewState b ∉ (buscar_fonetica env marca clase mr vs0).2) ∧
        (∀ (a p : Nat) (v : String),
            Evento.peticionPagina a p v ∈ (buscar_fonetica env marca clase mr vs0).2 →
            v = vs0.getD "")) := by
  rcases buscar_traza env marca clase mr vs0 with htr | heq
  · rw [htr]
    refine ⟨by simp, fun _ => by simp, rfl, by simp, by simp, ?_, ?_⟩
    · intro a b _ ha
      simp at ha
    · intro _
      exact ⟨by simp, by simp⟩
  · rw [heq]
    refine ⟨?_, ?_, rfl, ?_, ?_, ?_, ?_⟩
    · intro e he
      obtain ⟨h1, h2⟩ :=
        bucle_intento_cotas env marca clase (reintentos_de mr).toNat
          (reintentos_de mr).toNat 1 vs0 e he
      by_cases hreint : 1 ≤ (reintentos_de mr).toNat
      · exact ⟨h1, h2 hreint⟩
      · have h0 : (reintentos_de mr).toNat = 0 := by omega
        rw [h0] at he
        simp [bucleIntentos] at he
    · intro hmr e he
      subst hmr
      obtain ⟨_, h2⟩ :=
        bucle_intento_cotas env marca clase (reintentos_de none).toNat
          (reintentos_de none).toNat 1 vs0 e he
      exact h2 (by decide)
    · intro a p v he ha
      exact bucle_dormir_antes env marca clase (reintentos_de mr).toNat
        (reintentos_de mr).toNat 1 vs0 a p v he ha
    · intro a p v he
      exact bucle_pagina_cero env marca clase (reintentos_de mr).toNat
        (reintentos_de mr).toNat 1 vs0 a p v he
    · intro a b hab ha hb
      exact bucle_fetch_dos env marca clase (reintentos_de mr).toNat
        (reintentos_de mr).toNat 1 vs0 a b hab ha hb
    · intro hvf
      refine ⟨?_, ?_⟩
      · intro b
        exact bucle_sin_fetch env marca clase (reintentos_de mr).toNat
          (reintentos_de mr).toNat 1 vs0 hvf b
      · intro a p v he
        exact bucle_pet_vs env marca clase (reintentos_de mr).toNat
          (reintentos_de mr).toNat 1 vs0 hvf a p v he

/-- Witness for the amended C4: in the concrete timeout-then-success run,
the page request of retry attempt 2 is preceded by the sleep event of
attempt 2. -/
theorem reintentos_estructura_testigo :
    Evento.dormir 2 DELAY_ENTRE_PETICIONES ∈
      (buscar_fonetica entornoReintento "MARCA" none none none).2 :=
  (reintentos_estructura entornoReintento "MARCA" none none none).2.2.2.1 2 0 "VS1"
    (by decide) (by decide)

/-! ## C5 — the pagination loop issues at most 20 page requests -/

/-- C5.  Whatever the server behaviour (any envelopes, any reported
totals), one run of the pagination loop issues at most 20 page requests,
and within a whole query each attempt issues at most 20 page requests. -/
theorem paginacion_maximo_veinte :
    max_paginas = 20 ∧
    (∀ (env : Entorno) (a : Nat) (vsStr : String),
        List.countP esPeticionPagina (ejecutar_busqueda_fonetica env a vsStr).2 ≤ 20) ∧
    (∀ (env : Entorno) (marca : String) (clase : Option Int) (mr : Option Int)
        (vs0 : Option String) (a : Nat),
        List.countP (fun e => esPeticionPagina e && (intentoDe e == a))
          (buscar_fonetica env marca clase mr vs0).2 ≤ 20) := by
  refine ⟨rfl, ?_, ?_⟩
  · intro env a vsStr
    exact le_trans (List.countP_le_length _) (longitud_ejecutar env a vsStr)
  · intro env marca clase mr vs0 a
    rcases buscar_traza env marca clase mr vs0 with htr | heq
    · rw [htr]
      simp
    · rw [heq]
      exact bucle_cuenta env marca clase (reintentos_de mr).toNat
        (reintentos_de mr).toNat 1 vs0 a

/-! ## C6 — input validation -/

/-- Counterexample to C6 as stated: the class filter 0 lies outside
`[1, 45]`, yet the query does not fail immediately — it succeeds and
issues network traffic (a bootstrap fetch and a page request), because
`if clase_niza and (...)` treats the falsy 0 as no filter at all. -/
theorem clase_cero_no_rechazada :
    ((0 : Int) < 1 ∨ 45 < (0 : Int)) ∧
    (buscar_fonetica entornoAjaxMalo "MARCA" (some 0) none none).1.exito = true ∧
    List.countP esPeticionPagina
      (buscar_fonetica entornoAjaxMalo "MARCA" (some 0) none none).2 = 1 := by
  refine ⟨Or.inl (by norm_num), by decide, by decide⟩

/-- C6 amended.  An empty or whitespace-only term, or a *non-zero* class
filter outside `[1, 45]`, makes the query fail immediately: no network
event is recorded, no retry attempt is consumed, and the result is a
failure carrying a descriptive error; the filter value 0 is instead
treated as the absence of a filter. -/
theorem entrada_invalida_falla_inmediata (env : Entorno) (marca : String)
    (clase : Option Int) (mr : Option Int) (vs0 : Option String)
    (h : marca = "" ∨ pyStrip marca = "" ∨
      (∃ c : Int, clase = some c ∧ c ≠ 0 ∧ (c < 1 ∨ 45 < c))) :
    (buscar_fonetica env marca clase mr vs0).1.exito = false ∧
    (buscar_fonetica env marca clase mr vs0).1.marcas_encontradas = [] ∧
    (buscar_fonetica env marca clase mr vs0).2 = [] ∧
    (buscar_fonetica env marca clase mr vs0).1.error ≠ none := by
  by_cases h1 : (marca = "" ∨ pyStrip marca = "")
  · simp only [buscar_fonetica, if_pos h1]
    simp [resultado_error]
  · have h2 : claseInvalida clase = true := by
      rcases h with h | h | ⟨c, hc, hc0, hcr⟩
      · exact absurd (Or.inl h) h1
      · exact absurd (Or.inr h) h1
      · subst hc
        simp only [claseInvalida, if_neg hc0]
        exact decide_eq_true hcr
    simp only [buscar_fonetica, if_neg h1, if_pos h2]
    simp [resultado_error]

/-- Witness for the amended C6 at a whitespace-only term. -/
theorem entrada_invalida_falla_inmediata_testigo :
    (buscar_fonetica entornoAjaxMalo "   " none none none).1.exito = false ∧
    (buscar_fonetica entornoAjaxMalo "   " none none none).1.marcas_encontradas = [] ∧
    (buscar_fonetica entornoAjaxMalo "   " none none none).2 = [] ∧
    (buscar_fonetica entornoAjaxMalo "   " none none none).1.error ≠ none :=
  entrada_invalida_falla_inmediata entornoAjaxMalo "   " none none none
    (Or.inr (Or.inl (by decide)))

/-- Appending to a non-empty string yields a non-empty string. -/
lemma concat_no_vacia (p m : String) (hp : p.data ≠ []) : p ++ m ≠ "" := by
  intro h
  have hdat : (p ++ m).data = [] := by rw [h]
  rw [String.data_append] at hdat
  exact hp (List.append_eq_nil.mp hdat).1

/-- Every failed outcome of the retry loop carries no records and a
non-empty error description. -/
lemma bucle_falla (env : Entorno) (marca : String) (clase : Option Int) (reint : Nat) :
    ∀ (fuel intento : Nat) (vs : Option String),
      (bucleIntentos env marca clase reint intento fuel vs).1.exito = false →
      (bucleIntentos env marca clase reint intento fuel vs).1.marcas_encontradas = [] ∧
        ∃ s, (bucleIntentos env marca clase reint intento fuel vs).1.error = some s ∧ s ≠ "" := by
  intro fuel
  induction fuel with
  | zero =>
    intro intento vs _
    exact ⟨rfl, "Máximo de reintentos alcanzado", rfl, by decide⟩
  | succ f ih =>
    intro intento vs hex
    simp only [bucleIntentos] at hex ⊢
    cases hc : (ejecutar_busqueda_fonetica env intento ((vsSiguiente env intento vs).getD "")).1 with
    | exitoI marcas total =>
      rw [hc] at hex
      dsimp only at hex
      exact absurd hex (by simp)
    | fallaFatal msg =>
      refine ⟨rfl, "Error inesperado: " ++ msg, rfl, ?_⟩
      exact concat_no_vacia "Error inesperado: " msg (by decide)
    | fallaReintento tf =>
      rw [hc] at hex
      dsimp only at hex ⊢
      by_cases hr : intento = reint
      · rw [if_pos hr] at hex ⊢
        dsimp only
        cases tf with
        | timeout => exact ⟨rfl, "Timeout: el servidor tardó demasiado", rfl, by decide⟩
        | conexion msg =>
          refine ⟨rfl, "Error de conexión: " ++ msg, rfl, ?_⟩
          exact concat_no_vacia "Error de conexión: " msg (by decide)
      · rw [if_neg hr] at hex ⊢
        dsimp only at hex ⊢
        exact ih (intento + 1) (vsSiguiente env intento vs) hex

/-! ## C7 — failed queries return no records plus a descriptive error -/

/-- C7.  Every failed query result — from invalid input, an unexpected
exception, or retry exhaustion — carries an empty record list and a
non-empty error description: partial aggregates are never returned. -/
theorem fallo_sin_registros_con_error (env : Entorno) (marca : String) (clase : Option Int)
    (mr : Option Int) (vs0 : Option String)
    (h : (buscar_fonetica env marca clase mr vs0).1.exito = false) :
    (buscar_fonetica env marca clase mr vs0).1.marcas_encontradas = [] ∧
      ∃ s, (buscar_fonetica env marca clase mr vs0).1.error = some s ∧ s ≠ "" := by
  by_cases h1 : (marca = "" ∨ pyStrip marca = "")
  · simp only [buscar_fonetica, if_pos h1]
    exact ⟨rfl, "Marca vacía", rfl, by decide⟩
  · by_cases h2 : claseInvalida clase = true
    · simp only [buscar_fonetica, if_neg h1, if_pos h2]
      exact ⟨rfl, "Clase de Niza inválida", rfl, by decide⟩
    · simp only [buscar_fonetica, if_neg h1, if_neg h2] at h ⊢
      exact bucle_falla env marca clase (reintentos_de mr).toNat
        (reintentos_de mr).toNat 1 vs0 h

/-- Witness for C7: a concrete failed query (empty term) has no records
and a non-empty error. -/
theorem fallo_sin_registros_con_error_testigo :
    (buscar_fonetica entornoAjaxMalo "" none none none).1.marcas_encontradas = [] ∧
      ∃ s, (buscar_fonetica entornoAjaxMalo "" none none none).1.error = some s ∧ s ≠ "" :=
  fallo_sin_registros_con_error entornoAjaxMalo "" none none none (by decide)

/-! ## C2 — which records pass the validator -/

/-- Records of the plain-HTML branch all pass the validator. -/
lemma valida_html (filasO : Option (List Fila)) :
    ∀ m ∈ (parsear_resultados_fonetica (.htmlPlano filasO)).1, validar_marca m = true := by
  intro m hm
  simp only [parsear_resultados_fonetica, extraer_marcas_de_tabla] at hm
  cases filasO with
  | none => simp at hm
  | some filas =>
    simp only [List.mem_filterMap] at hm
    obtain ⟨fila, _, hf⟩ := hm
    cases hp : parsear_fila_marca fila with
    | none => rw [hp] at hf; simp at hf
    | some m2 =>
      rw [hp] at hf
      dsimp only at hf
      by_cases hv : validar_marca m2 = true
      · rw [if_pos hv] at hf
        obtain rfl := Option.some.inj hf
        exact hv
      · rw [if_neg hv] at hf
        simp at hf

/-- Records of any non-AJAX response all pass the validator. -/
lemma parsear_valida (r : Respuesta) (hr : esRespuestaHtml (.ok r) = true) :
    ∀ m ∈ (parsear_resultados_fonetica r).1, validar_marca m = true := by
  cases r with
  | ajaxXml bloques => simp [esRespuestaHtml] at hr
  | htmlPlano filasO => exact valida_html filasO

/-- Under an all-HTML environment, a successful page loop only aggregates
validated records. -/
lemma pag_loop_valida (env : Entorno) (a : Nat) (vs : String)
    (henv : ∀ p, esRespuestaHtml (env.pagina a p) = true) :
    ∀ (fuel pagina : Nat) (acc : List MarcaInfo) (tot : Nat),
      (∀ m ∈ acc, validar_marca m = true) →
      ∀ (marcas : List MarcaInfo) (total : Nat),
        (buclePaginas env a vs pagina fuel acc tot).1 = .exitoI marcas total →
        ∀ m ∈ marcas, validar_marca m = true := by
  intro fuel
  induction fuel with
  | zero =>
    intro pagina acc tot hacc marcas total hsal
    obtain ⟨rfl, rfl⟩ : acc = marcas ∧ tot = total := by
      simpa [buclePaginas] using hsal
    exact hacc
  | succ f ih =>
    intro pagina acc tot hacc marcas total hsal
    simp only [buclePaginas] at hsal
    cases hc : env.pagina a pagina with
    | timeout => rw [hc] at hsal; exact absurd hsal (by simp)
    | errorRed msg => rw [hc] at hsal; exact absurd hsal (by simp)
    | otraExcepcion msg => rw [hc] at hsal; exact absurd hsal (by simp)
    | ok r =>
      rw [hc] at hsal
      dsimp only at hsal
      have hr : esRespuestaHtml (.ok r) = true := by
        have h := henv pagina
        rw [hc] at h
        exact h
      have hmpv := parsear_valida r hr
      rcases hmt : parsear_resultados_fonetica r with ⟨mp, tt⟩
      rw [hmt] at hsal hmpv
      dsimp only at hsal hmpv
      by_cases h1 : mp.isEmpty = true
      · rw [if_pos h1] at hsal
        obtain ⟨rfl, rfl⟩ : acc = marcas ∧ tot = total := by simpa using hsal
        exact hacc
      · rw [if_neg h1] at hsal
        have hacc2 : ∀ m ∈ acc ++ mp, validar_marca m = true := by
          intro m hm
          rcases List.mem_append.mp hm with hm | hm
          · exact hacc m hm
          · exact hmpv m hm
        by_cases h2 : mp.length < 15
        · rw [if_pos h2] at hsal
          obtain ⟨rfl, rfl⟩ : acc ++ mp = marcas ∧
              (if tt > 0 then tt else (acc ++ mp).length) = total := by simpa using hsal
          exact hacc2
        · rw [if_neg h2] at hsal
          by_cases h3 : (if tt > 0 then tt else (acc ++ mp).length) > 0 ∧
              (acc ++ mp).length ≥ (if tt > 0 then tt else (acc ++ mp).length)
          · rw [if_pos h3] at hsal
            obtain ⟨rfl, rfl⟩ : acc ++ mp = marcas ∧
                (if tt > 0 then tt else (acc ++ mp).length) = total := by simpa using hsal
            exact hacc2
          · rw [if_neg h3] at hsal
            dsimp only at hsal
            exact ih (pagina + 1) (acc ++ mp) (if tt > 0 then tt else (acc ++ mp).length)
              hacc2 marcas total hsal

/-- Under an all-HTML environment, the retry loop only returns validated
records. -/
lemma bucle_valida (env : Entorno) (marca : String) (clase : Option Int) (reint : Nat)
    (henv : ∀ a p, esRespuestaHtml (env.pagina a p) = true) :
    ∀ (fuel intento : Nat) (vs : Option String),
      ∀ m ∈ (bucleIntentos env marca clase reint intento fuel vs).1.marcas_encontradas,
        validar_marca m = true := by
  intro fuel
  induction fuel with
  | zero => intro intento vs m hm; simp [bucleIntentos, resultado_error] at hm
  | succ f ih =>
    intro intento vs m hm
    simp only [bucleIntentos] at hm
    cases hc : (ejecutar_busqueda_fonetica env intento ((vsSiguiente env intento vs).getD "")).1 with
    | exitoI marcas total =>
      rw [hc] at hm
      dsimp only at hm
      exact pag_loop_valida env intento ((vsSiguiente env intento vs).getD "")
        (henv intento) max_paginas 0 [] 0 (by simp) marcas total hc m hm
    | fallaFatal msg =>
      rw [hc] at hm
      dsimp only at hm
      simp [resultado_error] at hm
    | fallaReintento tf =>
      rw [hc] at hm
      dsimp only at hm
      by_cases hr : intento = reint
      · rw [if_pos hr] at hm
        simp [resultado_error] at hm
      · rw [if_neg hr] at hm
        dsimp only at hm
        exact ih (intento + 1) (vsSiguiente env intento vs) m hm

/-- Counterexample to C2 as stated: a successful query whose page came
through the AJAX-envelope branch returns a record with class "99" — the
row loop of that branch appends mapper output without running the
validator, so not every record of a successful result has passed it. -/
theorem registro_invalido_en_resultado_exitoso :
    (buscar_fonetica entornoAjaxMalo "MARCA" none none none).1.exito = true ∧
    (buscar_fonetica entornoAjaxMalo "MARCA" none none none).1.marcas_encontradas =
      [mkMarcaInfo "MALA" "100002" "" "TITULAR SA" "99" "" "M"] ∧
    validar_marca (mkMarcaInfo "MALA" "100002" "" "TITULAR SA" "99" "" "M") = false := by
  refine ⟨by decide, by decide, by decide⟩

/-- C2 amended.  The validator invariant holds on the legacy plain-HTML
parsing branch: when every page response is a non-AJAX body, every record
of the returned aggregate has passed `_validar_marca` (class parsing as an
integer in [1,45], non-empty name and case number); records of the
AJAX-envelope branch are appended without validation. -/
theorem validador_en_ruta_html (env : Entorno) (marca : String) (clase : Option Int)
    (mr : Option Int) (vs0 : Option String)
    (henv : ∀ a p, esRespuestaHtml (env.pagina a p) = true) :
    ∀ m ∈ (buscar_fonetica env marca clase mr vs0).1.marcas_encontradas,
      validar_marca m = true := by
  intro m hm
  by_cases h1 : (marca = "" ∨ pyStrip marca = "")
  · simp only [buscar_fonetica, if_pos h1] at hm
    simp [resultado_error] at hm
  · by_cases h2 : claseInvalida clase = true
    · simp only [buscar_fonetica, if_neg h1, if_pos h2] at hm
      simp [resultado_error] at hm
    · simp only [buscar_fonetica, if_neg h1, if_neg h2] at hm
      exact bucle_valida env marca clase (reintentos_de mr).toNat henv
        (reintentos_de mr).toNat 1 vs0 m hm

/-- Witness for the amended C2: in the all-HTML environment the invalid
row is dropped and the surviving record passes the validator. -/
theorem validador_en_ruta_html_testigo :
    validar_marca (mkMarcaInfo "BUENA" "100001" "555" "TITULAR SA" "30" "" "M") = true :=
  validador_en_ruta_html entornoHtml "MARCA" none none none
    (fun a p => by by_cases hp : p = 0 <;> simp [entornoHtml, esRespuestaHtml, hp])
    (mkMarcaInfo "BUENA" "100001" "555" "TITULAR SA" "30" "" "M") (by decide)
